import Mathlib

/-!
Verification of the quote-service Quote Recommendation Core.

Shallow embedding of the recommendation core of the repository:
`src/services/SimilarityEngine.ts` (tokenizer, Levenshtein distance,
similarity scorer, ranking), `src/repositories/QuoteRepository.ts`
(weighted random selection, persistent similarity table), the
`CacheService` (Redis tier) and the `QuoteService` orchestration
(`getSimilarQuotes`, `likeQuote`).

Conventions of the embedding:
* JavaScript strings are `List Char`; `String.prototype.toLowerCase`,
  `trim`, `includes` and `.length` become `List.map Char.toLower`,
  `trimList`, `List.isInfixOf` and `List.length` (ASCII model).
* IEEE-754 double arithmetic on scores is modelled by exact rational
  arithmetic over `ℚ`.
* `Math.random()` is an explicit parameter `u : ℚ` with `0 ≤ u < 1`.
* Fallible collaborators (Redis, Prisma) are modelled by explicit
  boolean failure flags; a thrown error that the source catches and
  converts (cache reads returning `null`, cache writes becoming no-ops)
  is folded into the same `Option`/no-op result the caller observes.
* Fields of `Quote` that the recommendation core never reads
  (`source`, `createdAt`, `updatedAt`, `externalId`) are omitted.
-/

namespace QuoteSvc

/-! ## Characters, tokens and the tokenizer (`extractKeywords`) -/

/-- Whitespace characters matched by the JavaScript regex class `\s`
(ASCII part: space, tab, LF, CR, vertical tab, form feed). -/
def isSpaceChar (c : Char) : Bool :=
  c == ' ' || c == '\t' || c == '\n' || c == '\r' || c.val == 11 || c.val == 12

/-- Word characters matched by the JavaScript regex class `\w`:
ASCII alphanumerics and underscore. -/
def isWordChar (c : Char) : Bool :=
  c.isAlphanum || c == '_'

/-- Characters kept by `replace(/[^\w\s]/g, '')`. -/
def keepChar (c : Char) : Bool :=
  isWordChar c || isSpaceChar c

/-- JavaScript `String.prototype.trim`: drop leading and trailing
whitespace. -/
def trimList (l : List Char) : List Char :=
  ((l.dropWhile isSpaceChar).reverse.dropWhile isSpaceChar).reverse

/-- Keep the first occurrence of every element, dropping later
duplicates; this is the semantics of the source's
`filter((word, index, arr) => arr.indexOf(word) === index)` and of
spreading into a JavaScript `Set`. -/
def dedupFirst {α : Type} [DecidableEq α] : List α → List α
  | [] => []
  | x :: xs => x :: dedupFirst (xs.filter (fun y => y ≠ x))
termination_by l => l.length
decreasing_by
  simp only [List.length_cons]
  exact Nat.lt_succ_of_le (List.length_filter_le _ _)

/-- Splitting a character list at whitespace characters.  The source
splits with `/\s+/`; the two differ only in empty tokens (which the
keyword filter `word.length > 2` removes immediately afterwards). -/
def splitWSAux (cur : List Char) : List Char → List (List Char)
  | [] => [cur.reverse]
  | c :: cs =>
    if isSpaceChar c then cur.reverse :: splitWSAux [] cs
    else splitWSAux (c :: cur) cs

def splitWS (l : List Char) : List (List Char) :=
  splitWSAux [] l

/-- The stop-word list of `SimilarityEngine.extractKeywords`. -/
def stopWords : List (List Char) :=
  (["the", "a", "an", "and", "or", "but", "in", "on", "at", "to", "for", "of", "with",
    "by", "is", "are", "was", "were", "be", "been", "being", "have", "has", "had",
    "do", "does", "did", "will", "would", "could", "should", "may", "might", "must",
    "can", "shall", "this", "that", "these", "those", "i", "you", "he", "she", "it",
    "we", "they", "me", "him", "her", "us", "them", "my", "your", "his", "its",
    "our", "their", "not", "no", "yes"]).map String.toList

/-- `SimilarityEngine.extractKeywords`: lower-case, strip non-word
non-space characters, split on whitespace, keep tokens of length > 2
that are not stop words, de-duplicate keeping first occurrences. -/
def extractKeywords (text : List Char) : List (List Char) :=
  dedupFirst
    (((splitWS ((text.map Char.toLower).filter keepChar)).filter
      (fun w => decide (2 < w.length ∧ w ∉ stopWords))))

/-! ## The data model -/

/-- The fields of a `Quote` that the recommendation core reads.
`tags` is optional, as in the TypeScript interface (`tags?: string[]`). -/
structure Quote where
  id : String
  text : List Char
  author : List Char
  tags : Option (List (List Char))
  likes : Nat
deriving DecidableEq, Repr, Inhabited

/-- A ranked entry: `SimilarityScore` from `src/types`. -/
structure SimilarityScore where
  quote : Quote
  score : ℚ
deriving DecidableEq, Repr, Inhabited

/-! ## Levenshtein distance (`calculateLevenshteinDistance`) -/

/-- One row of the DP matrix built by `calculateLevenshteinDistance`,
computed from the previous row `prev` (row index `j + 1`): column 0 is
`j + 1`, and the inner cells take the minimum of deletion
(`matrix[j][i-1] + 1`), insertion (`matrix[j-1][i] + 1`) and
substitution (`matrix[j-1][i-1] + indicator`). -/
def levRowAux (s1 s2 : List Char) (j : Nat) (prev : Nat → Nat) : Nat → Nat
  | 0 => j + 1
  | i + 1 =>
    Nat.min (levRowAux s1 s2 j prev i + 1)
      (Nat.min (prev (i + 1) + 1)
        (prev i + (if s1.getD i ' ' = s2.getD j ' ' then 0 else 1)))

/-- Row `j` of the DP matrix; row 0 is `fun i => i`. -/
def levRow (s1 s2 : List Char) : Nat → Nat → Nat
  | 0 => fun i => i
  | j + 1 => levRowAux s1 s2 j (levRow s1 s2 j)

/-- Value of the DP matrix cell `matrix[j][i]` built by
`calculateLevenshteinDistance`. -/
def levCell (s1 s2 : List Char) (j i : Nat) : Nat := levRow s1 s2 j i

/-- `SimilarityEngine.calculateLevenshteinDistance`: the bottom-right
cell `matrix[str2.length][str1.length]`. -/
def calculateLevenshteinDistance (s1 s2 : List Char) : Nat :=
  levCell s1 s2 s2.length s1.length

/-! ## Author, tag and length similarity -/

/-- Whether `pat` is an initial segment of `l`. -/
def beginsWith : List Char → List Char → Bool
  | _, [] => true
  | [], _ :: _ => false
  | c :: cs, p :: ps => c = p && beginsWith cs ps

/-- JavaScript `String.prototype.includes`: `pat` occurs contiguously in
`l` (always true for the empty pattern). -/
def includesList (l pat : List Char) : Bool :=
  match l with
  | [] => pat.isEmpty
  | c :: cs => beginsWith (c :: cs) pat || includesList cs pat

/-- `SimilarityEngine.calculateAuthorSimilarity`: lower-case and trim
both names; equal names score 1; containment scores 0.8; otherwise
`max 0 ((maxLength - distance) / maxLength)`. -/
def calculateAuthorSimilarity (author1 author2 : List Char) : ℚ :=
  let name1 := trimList (author1.map Char.toLower)
  let name2 := trimList (author2.map Char.toLower)
  if name1 = name2 then 1
  else if includesList name1 name2 || includesList name2 name1 then 8 / 10
  else
    let maxLength : ℚ := (max name1.length name2.length : Nat)
    let distance : ℚ := (calculateLevenshteinDistance name1 name2 : Nat)
    max 0 ((maxLength - distance) / maxLength)

/-- `SimilarityEngine.calculateTagSimilarity`: 0.5 when both tag lists
are empty, 0 when exactly one is, otherwise the Jaccard ratio of the
lower-cased tag lists. -/
def calculateTagSimilarity (tags1 tags2 : List (List Char)) : ℚ :=
  if tags1.length = 0 ∧ tags2.length = 0 then 1 / 2
  else if tags1.length = 0 ∨ tags2.length = 0 then 0
  else
    let normalizedTags1 := tags1.map (fun t => t.map Char.toLower)
    let normalizedTags2 := tags2.map (fun t => t.map Char.toLower)
    let inter := normalizedTags1.filter (fun t => decide (t ∈ normalizedTags2))
    let union := dedupFirst (normalizedTags1 ++ normalizedTags2)
    (inter.length : ℚ) / (union.length : ℚ)

/-- `SimilarityEngine.calculateLengthSimilarity`:
`min length / max length`, and 1 when both texts are empty. -/
def calculateLengthSimilarity (text1 text2 : List Char) : ℚ :=
  let len1 := text1.length
  let len2 := text2.length
  let maxLength := max len1 len2
  let minLength := min len1 len2
  if maxLength = 0 then 1 else (minLength : ℚ) / (maxLength : ℚ)

/-! ## The blended similarity score -/

def MINIMUM_SIMILARITY_SCORE : ℚ := 8 / 100
def KEYWORD_WEIGHT : ℚ := 4 / 10
def SEMANTIC_WEIGHT : ℚ := 6 / 10
def authorWeight : ℚ := 5 / 10
def tagWeight : ℚ := 3 / 10
def lengthWeight : ℚ := 2 / 10

/-- `SimilarityEngine.calculateKeywordSimilarity`: Jaccard ratio of the
two keyword lists, 0 when both are empty. -/
def calculateKeywordSimilarity (quote1 quote2 : Quote) : ℚ :=
  let keywords1 := extractKeywords quote1.text
  let keywords2 := extractKeywords quote2.text
  if keywords1.length = 0 ∧ keywords2.length = 0 then 0
  else
    let inter := keywords1.filter (fun w => decide (w ∈ keywords2))
    let union := dedupFirst (keywords1 ++ keywords2)
    (inter.length : ℚ) / (union.length : ℚ)

/-- The author part of `calculateSemanticSimilarity` (lines 88–98 of
`SimilarityEngine.ts`): `0.9 × weight` on exact lower-cased (untrimmed)
match, `authorSim × weight` when `authorSim > 0.7`, else 0. -/
def authorContribution (quote1 quote2 : Quote) : ℚ :=
  if quote1.author.map Char.toLower = quote2.author.map Char.toLower then
    (9 / 10) * authorWeight
  else
    let authorSim := calculateAuthorSimilarity quote1.author quote2.author
    if 7 / 10 < authorSim then authorSim * authorWeight else 0

/-- `SimilarityEngine.calculateSemanticSimilarity`: author, tag and
length contributions accumulated with weights 0.5, 0.3, 0.2 and divided
by the accumulated total weight. -/
def calculateSemanticSimilarity (quote1 quote2 : Quote) : ℚ :=
  let semanticScore :=
    authorContribution quote1 quote2 +
      calculateTagSimilarity (quote1.tags.getD []) (quote2.tags.getD []) * tagWeight +
      calculateLengthSimilarity quote1.text quote2.text * lengthWeight
  let totalWeight := authorWeight + tagWeight + lengthWeight
  if 0 < totalWeight then semanticScore / totalWeight else 0

/-- `SimilarityEngine.calculateOverallSimilarity`:
`keyword × 0.4 + semantic × 0.6`. -/
def calculateOverallSimilarity (quote1 quote2 : Quote) : ℚ :=
  calculateKeywordSimilarity quote1 quote2 * KEYWORD_WEIGHT +
    calculateSemanticSimilarity quote1 quote2 * SEMANTIC_WEIGHT

/-! ## Ranking (`findSimilarQuotes`)

`Array.prototype.sort` is stable (ECMAScript 2019), so the source's
`sort((a, b) => b.score - a.score)` is a stable descending sort by
score; it is embedded as a stable insertion sort. -/

/-- Insert `x` into a descending-by-`key` list after every element
whose key is at least `key x` (stability for equal keys). -/
def insertByDesc {α : Type} (key : α → ℚ) (x : α) : List α → List α
  | [] => [x]
  | y :: ys => if key x ≤ key y then y :: insertByDesc key x ys else x :: y :: ys

/-- Stable descending insertion sort by `key`. -/
def sortByDesc {α : Type} (key : α → ℚ) (l : List α) : List α :=
  l.foldl (fun acc x => insertByDesc key x acc) []

/-- The loop body of `SimilarityEngine.findSimilarQuotes`: walk the
candidates in pool order, skip the target itself, score each remaining
candidate and keep those whose score reaches the minimum threshold. -/
def scoredCandidates (targetQuote : Quote) (candidateQuotes : List Quote) :
    List SimilarityScore :=
  ((candidateQuotes.filter (fun c => decide (c.id ≠ targetQuote.id))).map
    (fun c => ⟨c, calculateOverallSimilarity targetQuote c⟩)).filter
    (fun e => decide (MINIMUM_SIMILARITY_SCORE ≤ e.score))

/-- `SimilarityEngine.findSimilarQuotes`: score, threshold, stable
descending sort by score, truncate to `limit`. -/
def findSimilarQuotes (targetQuote : Quote) (candidateQuotes : List Quote)
    (limit : Nat) : List SimilarityScore :=
  (sortByDesc (fun e : SimilarityScore => e.score) (scoredCandidates targetQuote candidateQuotes)).take limit

/-! ## Weighted random selection (`QuoteRepository.getWeightedRandom`) -/

/-- Model of the Prisma call
`findMany({ orderBy: { likes: 'desc' } })`: a stable descending sort of
the table contents by `likes`. -/
def sortByLikesDesc (l : List Quote) : List Quote :=
  sortByDesc (fun q => (q.likes : ℚ)) l

/-- Model of the Prisma query in `getWeightedRandom`: keep quotes with
`likes ≥ minLikes` whose id is not excluded, ordered by likes
descending. -/
def weightedCandidates (pool : List Quote) (excludeIds : List String)
    (minLikes : Nat) : List Quote :=
  sortByLikesDesc (pool.filter (fun q => decide (minLikes ≤ q.likes ∧ q.id ∉ excludeIds)))

/-- Selection weight `likes + 1`. -/
def quoteWeight (q : Quote) : ℚ := (q.likes : ℚ) + 1

/-- `totalWeight`: the sum of the selection weights. -/
def totalWeightOf (qs : List Quote) : ℚ := (qs.map quoteWeight).sum

/-- The selection loop of `getWeightedRandom`: accumulate weights and
return the first quote whose cumulative weight is at least `r`. -/
def pickWalk (r : ℚ) (acc : ℚ) : List Quote → Option Quote
  | [] => none
  | q :: qs =>
    if r ≤ acc + quoteWeight q then some q else pickWalk r (acc + quoteWeight q) qs

/-- `QuoteRepository.getWeightedRandom` with `Math.random()` made the
explicit parameter `u`: empty pool returns nothing, a single candidate
is returned without consulting `u`, otherwise the weighted walk runs on
`u * totalWeight` with the last quote as fallback. -/
def getWeightedRandom (pool : List Quote) (excludeIds : List String)
    (minLikes : Nat) (u : ℚ) : Option Quote :=
  let quotes := weightedCandidates pool excludeIds minLikes
  if quotes.length = 0 then none
  else if quotes.length = 1 then quotes.head?
  else
    let totalWeight := totalWeightOf quotes
    let random := u * totalWeight
    match pickWalk random 0 quotes with
    | some q => some q
    | none => quotes.getLast?

/-! ## The two cache stores and the service state

The ephemeral tier is Redis (`CacheService`); its keys
`quote:<id>`, `similar:<id>`, `random_quotes` live in disjoint
namespaces and are modelled as three separate containers.  The
persistent tier is the Prisma `quoteSimilarity` table written and read
only by `QuoteRepository.getCachedSimilarities` /
`cacheSimilarities` / `clearCachedSimilarities`. -/

def lookupA {β : Type} (k : String) (l : List (String × β)) : Option β :=
  (l.find? (fun p => p.1 == k)).map (fun p => p.2)

def eraseA {β : Type} (k : String) (l : List (String × β)) : List (String × β) :=
  l.filter (fun p => decide (p.1 ≠ k))

def insertA {β : Type} (k : String) (v : β) (l : List (String × β)) :
    List (String × β) :=
  (k, v) :: eraseA k l

/-- The shared mutable state seen by the recommendation core: the quote
table, the persistent `quoteSimilarity` table, and the three Redis key
namespaces. -/
structure SimState where
  dbQuotes : List Quote
  persistentSim : List (String × List SimilarityScore)
  quoteCache : List (String × Quote)
  similarCache : List (String × List SimilarityScore)
  randomCache : Option (List Quote)
deriving DecidableEq, Repr, Inhabited

/-- The `ErrorCode` values the quote service raises on these paths. -/
inductive ErrCode where
  | VALIDATION_ERROR
  | QUOTE_NOT_FOUND
  | DATABASE_ERROR
deriving DecidableEq, Repr

/-- JavaScript `id.trim()` on a `String`-typed id. -/
def trimStr (s : String) : String := String.mk (trimList s.toList)

/-- `QuoteRepository.findAll`: the quote table ordered by likes
descending. -/
def findAllModel (st : SimState) : List Quote := sortByLikesDesc st.dbQuotes

/-- `CacheService.getSimilarQuotes`: a Redis failure is caught and
returned as `null`, indistinguishable from a miss. -/
def cacheGetSimilar (st : SimState) (fails : Bool) (quoteId : String) :
    Option (List SimilarityScore) :=
  if fails then none else lookupA quoteId st.similarCache

/-- `CacheService.setSimilarQuotes`: a Redis failure is caught and the
write becomes a no-op. -/
def cacheSetSimilar (st : SimState) (fails : Bool) (quoteId : String)
    (v : List SimilarityScore) : SimState :=
  if fails then st else { st with similarCache := insertA quoteId v st.similarCache }

/-- `CacheService.invalidateQuote`: delete `quote:<id>` then
`similar:<id>`; an exception in either delete is caught (if the first
delete throws, the second never runs). -/
def cacheInvalidateQuote (st : SimState) (delQuoteFails delSimilarFails : Bool)
    (id : String) : SimState :=
  if delQuoteFails then st
  else
    let st1 := { st with quoteCache := eraseA id st.quoteCache }
    if delSimilarFails then st1
    else { st1 with similarCache := eraseA id st1.similarCache }

/-- `CacheService.invalidateRandomQuotes`. -/
def cacheInvalidateRandom (st : SimState) (fails : Bool) : SimState :=
  if fails then st else { st with randomCache := none }

/-! ## `QuoteRepository`: the persistent similarity tier -/

/-- `QuoteRepository.getCachedSimilarities` (persistent tier read):
entries for the target ordered by score descending, truncated. -/
def getCachedSimilarities (st : SimState) (quoteId : String) (limit : Nat) :
    List SimilarityScore :=
  (sortByDesc (fun e : SimilarityScore => e.score) ((lookupA quoteId st.persistentSim).getD [])).take limit

/-- `QuoteRepository.cacheSimilarities` (persistent tier write):
replace the stored entries for the target. -/
def cacheSimilaritiesRepo (st : SimState) (quoteId : String)
    (similarities : List SimilarityScore) : SimState :=
  { st with persistentSim := insertA quoteId similarities st.persistentSim }

/-! ## `QuoteService.getSimilarQuotes` and `QuoteService.likeQuote` -/

/-- The compute-and-cache path of `QuoteService.getSimilarQuotes`: fetch
the full pool, rank it with the similarity engine at the requested
limit, and write the result to the Redis similarity cache. -/
def computeSimilar (st : SimState) (redisSetFails findAllFails : Bool)
    (targetQuote : Quote) (trimmedId : String) (limit : Int) :
    Except ErrCode (List SimilarityScore) × SimState :=
  if findAllFails then (.error .DATABASE_ERROR, st)
  else
    let allQuotes := findAllModel st
    let similarities := findSimilarQuotes targetQuote allQuotes limit.toNat
    (.ok similarities, cacheSetSimilar st redisSetFails trimmedId similarities)

/-- `QuoteService.getSimilarQuotes`: validate the id and the limit,
look up the target, consult the Redis similarity cache (a cached empty
list counts as a miss), and otherwise compute and cache. -/
def getSimilarQuotesService (st : SimState)
    (redisGetFails redisSetFails findByIdFails findAllFails : Bool)
    (id : String) (limit : Int) :
    Except ErrCode (List SimilarityScore) × SimState :=
  if (trimStr id).length = 0 then (.error .VALIDATION_ERROR, st)
  else if limit ≤ 0 ∨ 50 < limit then (.error .VALIDATION_ERROR, st)
  else
    let trimmedId := trimStr id
    if findByIdFails then (.error .DATABASE_ERROR, st)
    else
      match st.dbQuotes.find? (fun q => q.id == trimmedId) with
      | none => (.error .QUOTE_NOT_FOUND, st)
      | some targetQuote =>
        match cacheGetSimilar st redisGetFails trimmedId with
        | some cachedSimilarities =>
          if 0 < cachedSimilarities.length then
            (.ok (cachedSimilarities.take limit.toNat), st)
          else computeSimilar st redisSetFails findAllFails targetQuote trimmedId limit
        | none => computeSimilar st redisSetFails findAllFails targetQuote trimmedId limit

/-- `QuoteRepository.incrementLikes` on the quote table. -/
def incrementLikesModel (db : List Quote) (id : String) : List Quote :=
  db.map (fun q => if q.id == id then { q with likes := q.likes + 1 } else q)

/-- `QuoteService.likeQuote`: validate the id, check existence,
increment the like counter, then invalidate this quote's Redis entries
and the random-quotes key. -/
def likeQuoteService (st : SimState)
    (existsFails incrementFails delQuoteFails delSimilarFails delRandomFails : Bool)
    (id : String) : Except ErrCode Quote × SimState :=
  if (trimStr id).length = 0 then (.error .VALIDATION_ERROR, st)
  else
    let trimmedId := trimStr id
    if existsFails then (.error .DATABASE_ERROR, st)
    else if ¬ st.dbQuotes.any (fun q => q.id == trimmedId) then
      (.error .QUOTE_NOT_FOUND, st)
    else if incrementFails then (.error .DATABASE_ERROR, st)
    else
      let newDb := incrementLikesModel st.dbQuotes trimmedId
      match newDb.find? (fun q => q.id == trimmedId) with
      | none => (.error .QUOTE_NOT_FOUND, st)
      | some updatedQuote =>
        let st1 := { st with dbQuotes := newDb }
        let st2 := cacheInvalidateQuote st1 delQuoteFails delSimilarFails updatedQuote.id
        let st3 := cacheInvalidateRandom st2 delRandomFails
        (.ok updatedQuote, st3)

/-! ## Specification-side definitions

Definitions written from the spec's words, to be compared with the
embedded source functions above. -/

/-- The classic dynamic-programming Levenshtein recurrence with unit
insert/delete/substitute costs: `D(xs, ys)` compares the last
characters, exactly the textbook `D(i, j)` table on prefixes. -/
def levenshteinSpec (xs ys : List Char) : Nat :=
  if hx : xs = [] then ys.length
  else if hy : ys = [] then xs.length
  else
    Nat.min (levenshteinSpec xs.dropLast ys + 1)
      (Nat.min (levenshteinSpec xs ys.dropLast + 1)
        (levenshteinSpec xs.dropLast ys.dropLast +
          (if xs.getLast hx = ys.getLast hy then 0 else 1)))
termination_by xs.length + ys.length
decreasing_by
  · have := List.length_pos.mpr hx
    simp only [List.length_dropLast]; omega
  · have := List.length_pos.mpr hy
    simp only [List.length_dropLast]; omega
  · have h1 := List.length_pos.mpr hx
    have h2 := List.length_pos.mpr hy
    simp only [List.length_dropLast]; omega

/-- Jaccard coefficient of two finite sets. -/
def jaccardQ (A B : Finset (List Char)) : ℚ :=
  ((A ∩ B).card : ℚ) / ((A ∪ B).card : ℚ)

/-- Keyword similarity as the spec words it: Jaccard coefficient of the
two stop-word-filtered keyword sets, 0 when both sets are empty. -/
def keywordSimSpec (q1 q2 : Quote) : ℚ :=
  let A := (extractKeywords q1.text).toFinset
  let B := (extractKeywords q2.text).toFinset
  if A = ∅ ∧ B = ∅ then 0 else jaccardQ A B

/-- Author sub-score as the spec words it (weight 0.5 carried in the
contribution; a dissimilar author contributes 0 while the weight still
counts in the denominator). -/
def authorSubSpec (q1 q2 : Quote) : ℚ :=
  if q1.author.map Char.toLower = q2.author.map Char.toLower then (9 / 10) * (5 / 10)
  else if 7 / 10 < calculateAuthorSimilarity q1.author q2.author then
    calculateAuthorSimilarity q1.author q2.author * (5 / 10)
  else 0

/-- Tag sub-score as the spec words it: Jaccard of the lower-cased tag
sets, 0.5 when both sides have no tags, 0 when exactly one side has
tags. -/
def tagSubSpec (q1 q2 : Quote) : ℚ :=
  if q1.tags.getD [] = [] ∧ q2.tags.getD [] = [] then 1 / 2
  else if q1.tags.getD [] = [] ∨ q2.tags.getD [] = [] then 0
  else
    jaccardQ ((q1.tags.getD []).map (fun t => t.map Char.toLower)).toFinset
      ((q2.tags.getD []).map (fun t => t.map Char.toLower)).toFinset

/-- Length sub-score as the spec words it: `min length / max length`,
1 when both texts have length 0. -/
def lengthSubSpec (q1 q2 : Quote) : ℚ :=
  if q1.text.length = 0 ∧ q2.text.length = 0 then 1
  else ((min q1.text.length q2.text.length : Nat) : ℚ) /
    ((max q1.text.length q2.text.length : Nat) : ℚ)

/-- Semantic similarity as the spec words it: sum of the three
sub-scores (author carrying its weight, tags weighted 0.3, length
weighted 0.2) divided by the total applied weight. -/
def semanticSimSpec (q1 q2 : Quote) : ℚ :=
  (authorSubSpec q1 q2 + tagSubSpec q1 q2 * (3 / 10) + lengthSubSpec q1 q2 * (2 / 10)) /
    (5 / 10 + 3 / 10 + 2 / 10)

/-- Well-formedness of a quote's tags per the data model (§3): tags are
a *set* of lowercase strings, so the lower-cased tag list has no
duplicates. -/
def TagsNodup (q : Quote) : Prop :=
  ((q.tags.getD []).map (fun t => t.map Char.toLower)).Nodup

instance (q : Quote) : Decidable (TagsNodup q) := by
  unfold TagsNodup; infer_instance

/-- Cumulative selection weight of the first `n` candidates. -/
def cumW (qs : List Quote) (n : Nat) : ℚ :=
  ((qs.take n).map quoteWeight).sum

/-! ## Concrete fixtures used by witnesses and counterexamples -/

def wQuote1 : Quote :=
  ⟨"quote-1", "Hard work beats talent".toList, "A".toList, some ["work".toList], 0⟩

def wQuote2 : Quote :=
  ⟨"quote-2", "Talent without hard work is nothing".toList, "A".toList,
    some ["work".toList], 0⟩

def wQuoteA : Quote := ⟨"a", [], "A".toList, none, 1⟩

def wQuoteB : Quote := ⟨"b", [], "B".toList, none, 0⟩

def qT5 : Quote := ⟨"t", [], "A".toList, none, 0⟩

def qC5b : Quote := ⟨"b", [], "A".toList, none, 0⟩

def qC5c : Quote := ⟨"c", [], "A".toList, none, 0⟩

/-- State with an ephemeral miss but a persistent-tier entry for `"a"`. -/
def stC4 : SimState := ⟨[wQuoteA], [("a", [⟨wQuoteB, 1⟩])], [], [], none⟩

/-- State with a cached ephemeral entry for `"a"`. -/
def stHit : SimState := ⟨[wQuoteA], [], [], [("a", [⟨wQuoteB, 1 / 2⟩])], none⟩

/-- Three same-author quotes, nothing cached. -/
def stC5 : SimState := ⟨[qT5, qC5b, qC5c], [], [], [], none⟩

/-- State with entries for `"a"` in every store. -/
def stC6 : SimState :=
  ⟨[wQuoteA], [("a", [⟨wQuoteB, 1⟩])], [("a", wQuoteA)], [("a", [⟨wQuoteB, 1⟩])],
    some [wQuoteA]⟩

/-- Healthy minimal state with one quote and empty caches. -/
def stC7 : SimState := ⟨[wQuoteA], [], [], [], none⟩

/-! # Theorems -/

/-! ## Levenshtein distance: the DP matrix computes the classic
recurrence (claim C9) -/

theorem levenshteinSpec_nil_left (ys : List Char) : levenshteinSpec [] ys = ys.length := by
  rw [levenshteinSpec]
  simp

theorem levenshteinSpec_nil_right (xs : List Char) : levenshteinSpec xs [] = xs.length := by
  rw [levenshteinSpec]
  by_cases hx : xs = [] <;> simp [hx]

theorem dropLast_take_eq {α : Type} (l : List α) (i : Nat) (h : i < l.length) :
    (l.take (i + 1)).dropLast = l.take i := by
  have h1 : (l.take (i + 1)).length = i + 1 := by
    rw [List.length_take]; omega
  rw [List.dropLast_eq_take, h1, List.take_take]
  have h2 : (i + 1 - 1) ⊓ (i + 1) = i := by
    simp [Nat.min_def]
  rw [h2]

theorem take_ne_nil_of_lt {α : Type} (l : List α) (i : Nat) (h : i < l.length) :
    l.take (i + 1) ≠ [] := by
  have h1 : 0 < (l.take (i + 1)).length := by
    rw [List.length_take]; omega
  exact List.length_pos.mp h1

theorem getLast_take_eq {α : Type} (l : List α) (i : Nat) (h : i < l.length)
    (hne : l.take (i + 1) ≠ []) : (l.take (i + 1)).getLast hne = l[i] := by
  have h1 : (l.take (i + 1)).length = i + 1 := by
    rw [List.length_take]; omega
  rw [List.getLast_eq_getElem]
  simp only [h1, Nat.add_sub_cancel]
  exact List.getElem_take l

theorem getD_of_lt {α : Type} [Inhabited α] (l : List α) (d : α) (i : Nat)
    (h : i < l.length) : l.getD i d = l[i] := by
  rw [List.getD_eq_getElem?_getD, List.getElem?_eq_getElem h]
  rfl

theorem levCell_zero_row (s1 s2 : List Char) (i : Nat) : levCell s1 s2 0 i = i := rfl

theorem levCell_zero_col (s1 s2 : List Char) (j : Nat) :
    levCell s1 s2 (j + 1) 0 = j + 1 := rfl

theorem levCell_succ_succ (s1 s2 : List Char) (j i : Nat) :
    levCell s1 s2 (j + 1) (i + 1) =
      Nat.min (levCell s1 s2 (j + 1) i + 1)
        (Nat.min (levCell s1 s2 j (i + 1) + 1)
          (levCell s1 s2 j i + (if s1.getD i ' ' = s2.getD j ' ' then 0 else 1))) := rfl

/-- Each cell `matrix[j][i]` of the source's DP matrix is the classic
Levenshtein distance of the length-`i` prefix of `s1` and the
length-`j` prefix of `s2`. -/
theorem levCell_eq_spec (s1 s2 : List Char) :
    ∀ j i, j ≤ s2.length → i ≤ s1.length →
      levCell s1 s2 j i = levenshteinSpec (s1.take i) (s2.take j) := by
  intro j
  induction j with
  | zero =>
    intro i _ hi
    rw [List.take_zero, levenshteinSpec_nil_right, List.length_take, levCell_zero_row]
    omega
  | succ j ihj =>
    intro i
    induction i with
    | zero =>
      intro hj _
      rw [List.take_zero, levenshteinSpec_nil_left, List.length_take, levCell_zero_col]
      omega
    | succ i ihi =>
      intro hj hi
      have hj' : j < s2.length := by omega
      have hi' : i < s1.length := by omega
      have hne1 : s1.take (i + 1) ≠ [] := take_ne_nil_of_lt s1 i hi'
      have hne2 : s2.take (j + 1) ≠ [] := take_ne_nil_of_lt s2 j hj'
      rw [levenshteinSpec, dif_neg hne1, dif_neg hne2,
        dropLast_take_eq s1 i hi', dropLast_take_eq s2 j hj',
        getLast_take_eq s1 i hi' hne1, getLast_take_eq s2 j hj' hne2]
      rw [levCell_succ_succ]
      rw [ihi hj (by omega), ihj (i + 1) (by omega) hi, ihj i (by omega) (by omega),
        getD_of_lt s1 ' ' i hi', getD_of_lt s2 ' ' j hj']

theorem calculateAuthorSimilarity_nonneg (a1 a2 : List Char) :
    0 ≤ calculateAuthorSimilarity a1 a2 := by
  rw [calculateAuthorSimilarity]
  set name1 := trimList (a1.map Char.toLower)
  set name2 := trimList (a2.map Char.toLower)
  by_cases h1 : name1 = name2
  · simp [h1]
  · rw [if_neg h1]
    by_cases h2 : (includesList name1 name2 || includesList name2 name1) = true
    · rw [if_pos h2]
      norm_num
    · rw [if_neg h2]
      exact le_max_left 0 _

theorem calculateAuthorSimilarity_le_one (a1 a2 : List Char) :
    calculateAuthorSimilarity a1 a2 ≤ 1 := by
  rw [calculateAuthorSimilarity]
  set name1 := trimList (a1.map Char.toLower)
  set name2 := trimList (a2.map Char.toLower)
  by_cases h1 : name1 = name2
  · simp [h1]
  · rw [if_neg h1]
    by_cases h2 : (includesList name1 name2 || includesList name2 name1) = true
    · rw [if_pos h2]
      norm_num
    · rw [if_neg h2]
      rw [max_le_iff]
      refine ⟨by norm_num, ?_⟩
      have hd : (0 : ℚ) ≤ ((calculateLevenshteinDistance name1 name2 : Nat) : ℚ) := by
        positivity
      rcases Nat.eq_zero_or_pos (max name1.length name2.length) with hM | hM
      · rw [hM]
        norm_num
      · have hMpos : (0 : ℚ) < ((max name1.length name2.length : Nat) : ℚ) := by
          exact_mod_cast hM
        rw [div_le_one hMpos]
        linarith

/-- C9: `calculateLevenshteinDistance` equals the classic
dynamic-programming Levenshtein distance with unit
insert/delete/substitute costs (a non-negative integer by type), and
`calculateAuthorSimilarity` returns 1 on exact case-insensitive
(normalized) match, 0.8 when one normalized name is contained in the
other, otherwise `max 0 ((maxLen - editDistance) / maxLen)`, and always
lies in `[0, 1]`. -/
theorem claim_C9 :
    (∀ s1 s2 : List Char, calculateLevenshteinDistance s1 s2 = levenshteinSpec s1 s2) ∧
    (∀ a1 a2 : List Char,
      0 ≤ calculateAuthorSimilarity a1 a2 ∧ calculateAuthorSimilarity a1 a2 ≤ 1) ∧
    (∀ a1 a2 : List Char,
      trimList (a1.map Char.toLower) = trimList (a2.map Char.toLower) →
      calculateAuthorSimilarity a1 a2 = 1) ∧
    (∀ a1 a2 : List Char,
      trimList (a1.map Char.toLower) ≠ trimList (a2.map Char.toLower) →
      (includesList (trimList (a1.map Char.toLower)) (trimList (a2.map Char.toLower)) ||
        includesList (trimList (a2.map Char.toLower)) (trimList (a1.map Char.toLower))) = true →
      calculateAuthorSimilarity a1 a2 = 8 / 10) ∧
    (∀ a1 a2 : List Char,
      trimList (a1.map Char.toLower) ≠ trimList (a2.map Char.toLower) →
      (includesList (trimList (a1.map Char.toLower)) (trimList (a2.map Char.toLower)) ||
        includesList (trimList (a2.map Char.toLower)) (trimList (a1.map Char.toLower))) = false →
      calculateAuthorSimilarity a1 a2 =
        max 0 ((((max (trimList (a1.map Char.toLower)).length
            (trimList (a2.map Char.toLower)).length : Nat) : ℚ) -
          ((calculateLevenshteinDistance (trimList (a1.map Char.toLower))
            (trimList (a2.map Char.toLower)) : Nat) : ℚ)) /
          ((max (trimList (a1.map Char.toLower)).length
            (trimList (a2.map Char.toLower)).length : Nat) : ℚ))) := by
  refine ⟨?_, ?_, ?_, ?_, ?_⟩
  · intro s1 s2
    rw [calculateLevenshteinDistance, levCell_eq_spec s1 s2 s2.length s1.length le_rfl le_rfl,
      List.take_length, List.take_length]
  · intro a1 a2
    exact ⟨calculateAuthorSimilarity_nonneg a1 a2, calculateAuthorSimilarity_le_one a1 a2⟩
  · intro a1 a2 h
    rw [calculateAuthorSimilarity, if_pos h]
  · intro a1 a2 h1 h2
    rw [calculateAuthorSimilarity, if_neg h1, if_pos h2]
  · intro a1 a2 h1 h2
    rw [calculateAuthorSimilarity, if_neg h1]
    rw [h2]
    simp

/-! ## De-duplication and Jaccard bridging lemmas -/

theorem mem_dedupFirst {α : Type} [DecidableEq α] :
    ∀ (l : List α) (a : α), a ∈ dedupFirst l ↔ a ∈ l := by
  have key : ∀ (n : Nat) (l : List α), l.length ≤ n → ∀ a, (a ∈ dedupFirst l ↔ a ∈ l) := by
    intro n
    induction n with
    | zero =>
      intro l hl a
      have : l = [] := List.eq_nil_of_length_eq_zero (Nat.le_zero.mp hl)
      subst this
      rw [dedupFirst]
    | succ n ih =>
      intro l hl a
      match l with
      | [] => rw [dedupFirst]
      | x :: xs =>
        rw [dedupFirst]
        simp only [List.mem_cons]
        rw [ih (xs.filter (fun y => y ≠ x))
          (le_trans (List.length_filter_le _ _) (by simpa using hl)) a]
        by_cases hax : a = x
        · simp [hax]
        · simp [hax, List.mem_filter]
  intro l a
  exact key l.length l le_rfl a

theorem nodup_dedupFirst {α : Type} [DecidableEq α] :
    ∀ (l : List α), (dedupFirst l).Nodup := by
  have key : ∀ (n : Nat) (l : List α), l.length ≤ n → (dedupFirst l).Nodup := by
    intro n
    induction n with
    | zero =>
      intro l hl
      have : l = [] := List.eq_nil_of_length_eq_zero (Nat.le_zero.mp hl)
      subst this
      rw [dedupFirst]
      exact List.nodup_nil
    | succ n ih =>
      intro l hl
      match l with
      | [] =>
        rw [dedupFirst]
        exact List.nodup_nil
      | x :: xs =>
        rw [dedupFirst]
        refine List.Nodup.cons ?_ (ih _ (le_trans (List.length_filter_le _ _) (by simpa using hl)))
        intro hmem
        rw [mem_dedupFirst] at hmem
        simp [List.mem_filter] at hmem
  intro l
  exact key l.length l le_rfl

theorem toFinset_dedupFirst {α : Type} [DecidableEq α] (l : List α) :
    (dedupFirst l).toFinset = l.toFinset := by
  ext a
  simp [List.mem_toFinset, mem_dedupFirst]

theorem length_filter_mem_eq_card_inter {α : Type} [DecidableEq α]
    (k1 k2 : List α) (p : α → Bool) (hp : ∀ a, p a = true ↔ a ∈ k2) (h1 : k1.Nodup) :
    (k1.filter p).length = (k1.toFinset ∩ k2.toFinset).card := by
  rw [← List.toFinset_card_of_nodup (h1.filter _)]
  congr 1
  ext a
  simp [List.mem_toFinset, List.mem_filter, Finset.mem_inter, hp]

theorem length_dedupFirst_append_eq_card_union {α : Type} [DecidableEq α]
    (k1 k2 : List α) :
    (dedupFirst (k1 ++ k2)).length = (k1.toFinset ∪ k2.toFinset).card := by
  rw [← List.toFinset_card_of_nodup (nodup_dedupFirst _), toFinset_dedupFirst,
    List.toFinset_append]

/-! ## The scoring formula matches the spec's decomposition (claim C1) -/

theorem extractKeywords_nodup (text : List Char) : (extractKeywords text).Nodup :=
  nodup_dedupFirst _

theorem calculateKeywordSimilarity_eq_spec (q1 q2 : Quote) :
    calculateKeywordSimilarity q1 q2 = keywordSimSpec q1 q2 := by
  unfold calculateKeywordSimilarity keywordSimSpec jaccardQ
  simp only
  have hcond : (extractKeywords q1.text).length = 0 ∧ (extractKeywords q2.text).length = 0 ↔
      (extractKeywords q1.text).toFinset = ∅ ∧ (extractKeywords q2.text).toFinset = ∅ := by
    rw [List.length_eq_zero, List.length_eq_zero, List.toFinset_eq_empty_iff,
      List.toFinset_eq_empty_iff]
  by_cases h : (extractKeywords q1.text).length = 0 ∧ (extractKeywords q2.text).length = 0
  · rw [if_pos h, if_pos (hcond.mp h)]
  · rw [if_neg h, if_neg (fun hc => h (hcond.mpr hc))]
    congr 1
    · exact_mod_cast length_filter_mem_eq_card_inter (extractKeywords q1.text)
        (extractKeywords q2.text) _ (by intro a; simp) (extractKeywords_nodup q1.text)
    · exact_mod_cast length_dedupFirst_append_eq_card_union (extractKeywords q1.text)
        (extractKeywords q2.text)

theorem calculateTagSimilarity_eq_spec (q1 q2 : Quote)
    (h1 : TagsNodup q1) (h2 : TagsNodup q2) :
    calculateTagSimilarity (q1.tags.getD []) (q2.tags.getD []) = tagSubSpec q1 q2 := by
  unfold calculateTagSimilarity tagSubSpec jaccardQ
  unfold TagsNodup at h1 h2
  simp only
  by_cases hb : q1.tags.getD [] = [] ∧ q2.tags.getD [] = []
  · rw [if_pos ⟨by rw [hb.1]; rfl, by rw [hb.2]; rfl⟩, if_pos hb]
  · have hb' : ¬((q1.tags.getD []).length = 0 ∧ (q2.tags.getD []).length = 0) := by
      rw [List.length_eq_zero, List.length_eq_zero]; exact hb
    rw [if_neg hb', if_neg hb]
    by_cases ho : q1.tags.getD [] = [] ∨ q2.tags.getD [] = []
    · rw [if_pos (by rw [List.length_eq_zero, List.length_eq_zero]; exact ho), if_pos ho]
    · rw [if_neg (by rw [List.length_eq_zero, List.length_eq_zero]; exact ho), if_neg ho]
      congr 1
      · exact_mod_cast length_filter_mem_eq_card_inter
          ((q1.tags.getD []).map (fun t => List.map Char.toLower t))
          ((q2.tags.getD []).map (fun t => List.map Char.toLower t)) _ (by intro a; simp) h1
      · exact_mod_cast length_dedupFirst_append_eq_card_union
          ((q1.tags.getD []).map (fun t => List.map Char.toLower t))
          ((q2.tags.getD []).map (fun t => List.map Char.toLower t))

theorem calculateLengthSimilarity_eq_spec (q1 q2 : Quote) :
    calculateLengthSimilarity q1.text q2.text = lengthSubSpec q1 q2 := by
  unfold calculateLengthSimilarity lengthSubSpec
  simp only
  by_cases h : max q1.text.length q2.text.length = 0
  · rw [if_pos h, if_pos (Nat.max_eq_zero_iff.mp h)]
  · rw [if_neg h, if_neg (fun hc => h (Nat.max_eq_zero_iff.mpr hc))]

theorem authorContribution_eq_spec (q1 q2 : Quote) :
    authorContribution q1 q2 = authorSubSpec q1 q2 := rfl

theorem calculateSemanticSimilarity_eq_spec (q1 q2 : Quote)
    (h1 : TagsNodup q1) (h2 : TagsNodup q2) :
    calculateSemanticSimilarity q1 q2 = semanticSimSpec q1 q2 := by
  unfold calculateSemanticSimilarity semanticSimSpec
  simp only
  rw [if_pos (show (0 : ℚ) < authorWeight + tagWeight + lengthWeight by
    norm_num [authorWeight, tagWeight, lengthWeight])]
  rw [authorContribution_eq_spec, calculateTagSimilarity_eq_spec q1 q2 h1 h2,
    calculateLengthSimilarity_eq_spec q1 q2]
  norm_num [authorWeight, tagWeight, lengthWeight]

/-- C1: for well-formed quotes (tags form a set), the overall score is
`keywordSim × 0.4 + semanticSim × 0.6` with `keywordSim` the Jaccard
coefficient of the stop-word-filtered keyword sets (0 when both are
empty) and `semanticSim` the weighted author/tag/length combination of
the spec, divided by the total applied weight. -/
theorem claim_C1 (q1 q2 : Quote) (h1 : TagsNodup q1) (h2 : TagsNodup q2) :
    calculateOverallSimilarity q1 q2 =
      keywordSimSpec q1 q2 * (4 / 10) + semanticSimSpec q1 q2 * (6 / 10) := by
  unfold calculateOverallSimilarity KEYWORD_WEIGHT SEMANTIC_WEIGHT
  rw [calculateKeywordSimilarity_eq_spec q1 q2,
    calculateSemanticSimilarity_eq_spec q1 q2 h1 h2]

/-- Witness for C1 at the spec's own §8 scenario quotes. -/
theorem claim_C1_witness :
    calculateOverallSimilarity wQuote1 wQuote2 =
      keywordSimSpec wQuote1 wQuote2 * (4 / 10) + semanticSimSpec wQuote1 wQuote2 * (6 / 10) :=
  claim_C1 wQuote1 wQuote2 (by decide) (by decide)

/-- Witness for C9 at concrete author names. -/
theorem claim_C9_witness :
    calculateAuthorSimilarity ("Mark Twain".toList) ("  mark twain ".toList) = 1 ∧
    calculateAuthorSimilarity ("Mark Twain".toList) ("Twain".toList) = 8 / 10 ∧
    calculateAuthorSimilarity ("abc".toList) ("xyz".toList) = 0 :=
  ⟨claim_C9.2.2.1 _ _ (by decide),
   claim_C9.2.2.2.1 _ _ (by decide) (by decide),
   by
    have h := claim_C9.2.2.2.2 ("abc".toList) ("xyz".toList) (by decide) (by decide)
    rw [h]
    with_unfolding_all rfl⟩

/-! ## Stable descending sort lemmas -/

section SortLemmas

variable {α : Type} (key : α → ℚ)

theorem insertByDesc_perm (x : α) (l : List α) : (insertByDesc key x l).Perm (x :: l) := by
  induction l with
  | nil => exact List.Perm.refl _
  | cons y ys ih =>
    rw [insertByDesc]
    by_cases h : key x ≤ key y
    · rw [if_pos h]
      exact (ih.cons y).trans (List.Perm.swap x y ys)
    · rw [if_neg h]

theorem sortByDesc_aux_perm (l : List α) :
    ∀ acc, (l.foldl (fun a x => insertByDesc key x a) acc).Perm (acc ++ l) := by
  induction l with
  | nil => intro acc; simp
  | cons x xs ih =>
    intro acc
    rw [List.foldl_cons]
    refine (ih (insertByDesc key x acc)).trans ?_
    refine (List.Perm.append_right xs (insertByDesc_perm key x acc)).trans ?_
    exact List.perm_middle.symm

theorem sortByDesc_perm (l : List α) : (sortByDesc key l).Perm l := by
  have h := sortByDesc_aux_perm key l []
  simpa [sortByDesc] using h

theorem insertByDesc_pairwise (x : α) (l : List α)
    (h : l.Pairwise (fun a b => key b ≤ key a)) :
    (insertByDesc key x l).Pairwise (fun a b => key b ≤ key a) := by
  induction l with
  | nil => simp [insertByDesc]
  | cons y ys ih =>
    rcases List.pairwise_cons.mp h with ⟨hy, hys⟩
    rw [insertByDesc]
    by_cases hxy : key x ≤ key y
    · rw [if_pos hxy]
      refine List.pairwise_cons.mpr ⟨?_, ih hys⟩
      intro z hz
      rcases List.mem_cons.mp ((insertByDesc_perm key x ys).mem_iff.mp hz) with rfl | hz'
      · exact hxy
      · exact hy z hz'
    · rw [if_neg hxy]
      push_neg at hxy
      refine List.pairwise_cons.mpr ⟨?_, h⟩
      intro z hz
      rcases List.mem_cons.mp hz with rfl | hz'
      · exact le_of_lt hxy
      · exact le_trans (hy z hz') (le_of_lt hxy)

theorem sortByDesc_pairwise (l : List α) :
    (sortByDesc key l).Pairwise (fun a b => key b ≤ key a) := by
  have aux : ∀ (l' acc : List α), acc.Pairwise (fun a b => key b ≤ key a) →
      (l'.foldl (fun a x => insertByDesc key x a) acc).Pairwise
        (fun a b => key b ≤ key a) := by
    intro l'
    induction l' with
    | nil => intro acc h; simpa using h
    | cons x xs ih =>
      intro acc h
      rw [List.foldl_cons]
      exact ih _ (insertByDesc_pairwise key x acc h)
  exact aux l [] List.Pairwise.nil

theorem insertByDesc_filter (x : α) (s : ℚ) :
    ∀ (l : List α), l.Pairwise (fun a b => key b ≤ key a) →
      (insertByDesc key x l).filter (fun e => decide (key e = s)) =
        if key x = s then l.filter (fun e => decide (key e = s)) ++ [x]
        else l.filter (fun e => decide (key e = s)) := by
  intro l
  induction l with
  | nil =>
    intro _
    by_cases hx : key x = s <;> simp [insertByDesc, List.filter, hx]
  | cons y ys ih =>
    intro h
    rcases List.pairwise_cons.mp h with ⟨hy, hys⟩
    rw [insertByDesc]
    by_cases hxy : key x ≤ key y
    · rw [if_pos hxy]
      by_cases hx : key x = s <;> by_cases hyeq : key y = s <;>
        simp [List.filter_cons, hx, hyeq, ih hys]
    · rw [if_neg hxy]
      push_neg at hxy
      by_cases hx : key x = s
      · rw [if_pos hx]
        have hnil : (y :: ys).filter (fun e => decide (key e = s)) = [] := by
          rw [List.filter_eq_nil_iff]
          intro z hz
          have hzle : key z ≤ key y := by
            rcases List.mem_cons.mp hz with rfl | hz'
            · exact le_rfl
            · exact hy z hz'
          simp only [decide_eq_true_eq]
          intro hzs
          rw [hzs] at hzle
          rw [hx] at hxy
          exact absurd (lt_of_lt_of_le hxy hzle) (lt_irrefl _)
        simp [List.filter_cons, hx, hnil]
      · rw [if_neg hx]
        simp [List.filter_cons, hx]

theorem sortByDesc_filter (l : List α) (s : ℚ) :
    (sortByDesc key l).filter (fun e => decide (key e = s)) =
      l.filter (fun e => decide (key e = s)) := by
  have aux : ∀ (l' acc : List α), acc.Pairwise (fun a b => key b ≤ key a) →
      (l'.foldl (fun a x => insertByDesc key x a) acc).filter (fun e => decide (key e = s)) =
        acc.filter (fun e => decide (key e = s)) ++
          l'.filter (fun e => decide (key e = s)) := by
    intro l'
    induction l' with
    | nil => intro acc _; simp
    | cons x xs ih =>
      intro acc h
      rw [List.foldl_cons, ih _ (insertByDesc_pairwise key x acc h),
        insertByDesc_filter key x s acc h]
      by_cases hx : key x = s <;> simp [List.filter_cons, hx]
  have h := aux l [] List.Pairwise.nil
  simpa [sortByDesc] using h

end SortLemmas

/-! ## Ranking properties (claim C2) -/

theorem mem_scoredCandidates (targetQuote : Quote) (pool : List Quote)
    (e : SimilarityScore) :
    e ∈ scoredCandidates targetQuote pool ↔
      MINIMUM_SIMILARITY_SCORE ≤ e.score ∧
        ∃ c ∈ pool, c.id ≠ targetQuote.id ∧
          e = ⟨c, calculateOverallSimilarity targetQuote c⟩ := by
  unfold scoredCandidates
  simp only [List.mem_filter, List.mem_map, List.mem_filter, decide_eq_true_eq]
  constructor
  · rintro ⟨⟨c, ⟨hc, hcid⟩, rfl⟩, hsc⟩
    exact ⟨hsc, c, hc, hcid, rfl⟩
  · rintro ⟨hsc, c, hc, hcid, rfl⟩
    exact ⟨⟨c, ⟨hc, hcid⟩, rfl⟩, hsc⟩

theorem mem_findSimilarQuotes (targetQuote : Quote) (pool : List Quote)
    (limit : Nat) (e : SimilarityScore)
    (he : e ∈ findSimilarQuotes targetQuote pool limit) :
    e ∈ scoredCandidates targetQuote pool := by
  unfold findSimilarQuotes at he
  exact (sortByDesc_perm (fun e : SimilarityScore => e.score) _).mem_iff.mp
    ((List.take_sublist _ _).subset he)

/-- C2: the ranked result never contains the target, drops every
candidate below the 0.08 threshold, is sorted descending by score with
ties kept in pool order (the stable sort preserves, score class by
score class, the order of the scored candidates), and has at most
`limit` entries. -/
theorem claim_C2 (targetQuote : Quote) (pool : List Quote) (limit : Nat) :
    (∀ e ∈ findSimilarQuotes targetQuote pool limit, e.quote.id ≠ targetQuote.id) ∧
    (∀ e ∈ findSimilarQuotes targetQuote pool limit, MINIMUM_SIMILARITY_SCORE ≤ e.score) ∧
    (findSimilarQuotes targetQuote pool limit).Pairwise (fun a b => b.score ≤ a.score) ∧
    (findSimilarQuotes targetQuote pool limit).length ≤ limit ∧
    findSimilarQuotes targetQuote pool limit =
      (sortByDesc (fun e : SimilarityScore => e.score) (scoredCandidates targetQuote pool)).take limit ∧
    (∀ s : ℚ, (sortByDesc (fun e : SimilarityScore => e.score) (scoredCandidates targetQuote pool)).filter
        (fun e => decide (e.score = s)) =
      (scoredCandidates targetQuote pool).filter (fun e => decide (e.score = s))) := by
  refine ⟨?_, ?_, ?_, ?_, rfl, ?_⟩
  · intro e he
    rcases (mem_scoredCandidates targetQuote pool e).mp
      (mem_findSimilarQuotes targetQuote pool limit e he) with ⟨_, c, _, hcid, rfl⟩
    exact hcid
  · intro e he
    exact ((mem_scoredCandidates targetQuote pool e).mp
      (mem_findSimilarQuotes targetQuote pool limit e he)).1
  · exact (sortByDesc_pairwise (fun e : SimilarityScore => e.score) _).sublist (List.take_sublist _ _)
  · exact List.length_take_le _ _
  · intro s
    exact sortByDesc_filter (fun e : SimilarityScore => e.score) _ s

/-- Witness for C2 on a concrete pool: the single ranked entry is not
the target and clears the threshold. -/
theorem claim_C2_witness :
    (⟨wQuote2, 2539 / 3500⟩ : SimilarityScore).quote.id ≠ wQuote1.id ∧
    MINIMUM_SIMILARITY_SCORE ≤ (⟨wQuote2, 2539 / 3500⟩ : SimilarityScore).score := by
  have hres : findSimilarQuotes wQuote1 [wQuote1, wQuote2] 5 =
      [⟨wQuote2, 2539 / 3500⟩] := by
    with_unfolding_all rfl
  have hmem : (⟨wQuote2, 2539 / 3500⟩ : SimilarityScore) ∈
      findSimilarQuotes wQuote1 [wQuote1, wQuote2] 5 := by
    rw [hres]
    exact List.mem_singleton.mpr rfl
  exact ⟨(claim_C2 wQuote1 [wQuote1, wQuote2] 5).1 _ hmem,
    (claim_C2 wQuote1 [wQuote1, wQuote2] 5).2.1 _ hmem⟩

/-! ## Score bounds (claim C8) -/

theorem length_le_of_nodup_subset {α : Type} [DecidableEq α] (l1 l2 : List α)
    (h1 : l1.Nodup) (h2 : l2.Nodup) (hsub : l1 ⊆ l2) : l1.length ≤ l2.length := by
  rw [← List.toFinset_card_of_nodup h1, ← List.toFinset_card_of_nodup h2]
  exact Finset.card_le_card
    (fun a ha => List.mem_toFinset.mpr (hsub (List.mem_toFinset.mp ha)))

theorem jaccard_ratio_le_one {α : Type} [DecidableEq α]
    (k1 k2 : List α) (p : α → Bool) (h1 : k1.Nodup) :
    ((k1.filter p).length : ℚ) / ((dedupFirst (k1 ++ k2)).length : ℚ) ≤ 1 := by
  rcases Nat.eq_zero_or_pos (dedupFirst (k1 ++ k2)).length with h | h
  · rw [h]
    norm_num
  · have hpos : (0 : ℚ) < ((dedupFirst (k1 ++ k2)).length : ℚ) := by exact_mod_cast h
    rw [div_le_one hpos]
    have hle : (k1.filter p).length ≤ (dedupFirst (k1 ++ k2)).length := by
      refine length_le_of_nodup_subset _ _ (h1.filter p) (nodup_dedupFirst _) ?_
      intro a ha
      exact (mem_dedupFirst _ a).mpr (List.mem_append_left k2 (List.mem_of_mem_filter ha))
    exact_mod_cast hle

theorem calculateKeywordSimilarity_nonneg (q1 q2 : Quote) :
    0 ≤ calculateKeywordSimilarity q1 q2 := by
  unfold calculateKeywordSimilarity
  simp only
  by_cases h : (extractKeywords q1.text).length = 0 ∧ (extractKeywords q2.text).length = 0
  · rw [if_pos h]
  · rw [if_neg h]
    positivity

theorem calculateKeywordSimilarity_le_one (q1 q2 : Quote) :
    calculateKeywordSimilarity q1 q2 ≤ 1 := by
  unfold calculateKeywordSimilarity
  simp only
  by_cases h : (extractKeywords q1.text).length = 0 ∧ (extractKeywords q2.text).length = 0
  · rw [if_pos h]
    norm_num
  · rw [if_neg h]
    exact jaccard_ratio_le_one _ _ _ (extractKeywords_nodup q1.text)

theorem calculateTagSimilarity_nonneg (tags1 tags2 : List (List Char)) :
    0 ≤ calculateTagSimilarity tags1 tags2 := by
  unfold calculateTagSimilarity
  simp only
  by_cases h1 : tags1.length = 0 ∧ tags2.length = 0
  · rw [if_pos h1]
    norm_num
  · rw [if_neg h1]
    by_cases h2 : tags1.length = 0 ∨ tags2.length = 0
    · rw [if_pos h2]
    · rw [if_neg h2]
      positivity

theorem calculateTagSimilarity_le_one (tags1 tags2 : List (List Char))
    (h1 : (tags1.map (fun t => t.map Char.toLower)).Nodup) :
    calculateTagSimilarity tags1 tags2 ≤ 1 := by
  unfold calculateTagSimilarity
  simp only
  by_cases hb : tags1.length = 0 ∧ tags2.length = 0
  · rw [if_pos hb]
    norm_num
  · rw [if_neg hb]
    by_cases ho : tags1.length = 0 ∨ tags2.length = 0
    · rw [if_pos ho]
      norm_num
    · rw [if_neg ho]
      exact jaccard_ratio_le_one _ _ _ h1

theorem calculateLengthSimilarity_nonneg (t1 t2 : List Char) :
    0 ≤ calculateLengthSimilarity t1 t2 := by
  unfold calculateLengthSimilarity
  simp only
  by_cases h : max t1.length t2.length = 0
  · rw [if_pos h]
    norm_num
  · rw [if_neg h]
    positivity

theorem calculateLengthSimilarity_le_one (t1 t2 : List Char) :
    calculateLengthSimilarity t1 t2 ≤ 1 := by
  unfold calculateLengthSimilarity
  simp only
  by_cases h : max t1.length t2.length = 0
  · rw [if_pos h]
  · rw [if_neg h]
    have hpos : (0 : ℚ) < ((max t1.length t2.length : Nat) : ℚ) := by
      have : 0 < max t1.length t2.length := Nat.pos_of_ne_zero h
      exact_mod_cast this
    rw [div_le_one hpos]
    exact_mod_cast min_le_max

theorem authorContribution_nonneg (q1 q2 : Quote) : 0 ≤ authorContribution q1 q2 := by
  unfold authorContribution
  simp only
  by_cases h : q1.author.map Char.toLower = q2.author.map Char.toLower
  · rw [if_pos h]
    norm_num [authorWeight]
  · rw [if_neg h]
    have hs := calculateAuthorSimilarity_nonneg q1.author q2.author
    by_cases h7 : 7 / 10 < calculateAuthorSimilarity q1.author q2.author
    · rw [if_pos h7]
      have hw : (0 : ℚ) ≤ authorWeight := by norm_num [authorWeight]
      exact mul_nonneg hs hw
    · rw [if_neg h7]

theorem authorContribution_le_half (q1 q2 : Quote) :
    authorContribution q1 q2 ≤ 5 / 10 := by
  unfold authorContribution
  simp only
  by_cases h : q1.author.map Char.toLower = q2.author.map Char.toLower
  · rw [if_pos h]
    norm_num [authorWeight]
  · rw [if_neg h]
    have hs := calculateAuthorSimilarity_le_one q1.author q2.author
    by_cases h7 : 7 / 10 < calculateAuthorSimilarity q1.author q2.author
    · rw [if_pos h7]
      rw [show authorWeight = 5 / 10 from rfl]
      nlinarith
    · rw [if_neg h7]
      norm_num

theorem calculateSemanticSimilarity_nonneg (q1 q2 : Quote) :
    0 ≤ calculateSemanticSimilarity q1 q2 := by
  unfold calculateSemanticSimilarity
  simp only
  have hw : (0 : ℚ) < authorWeight + tagWeight + lengthWeight := by
    norm_num [authorWeight, tagWeight, lengthWeight]
  rw [if_pos hw]
  have ha := authorContribution_nonneg q1 q2
  have ht := calculateTagSimilarity_nonneg (q1.tags.getD []) (q2.tags.getD [])
  have hl := calculateLengthSimilarity_nonneg q1.text q2.text
  apply div_nonneg _ (le_of_lt hw)
  have h1 := mul_nonneg ht (show (0 : ℚ) ≤ tagWeight by norm_num [tagWeight])
  have h2 := mul_nonneg hl (show (0 : ℚ) ≤ lengthWeight by norm_num [lengthWeight])
  linarith

theorem calculateSemanticSimilarity_le_one (q1 q2 : Quote)
    (h1 : TagsNodup q1) : calculateSemanticSimilarity q1 q2 ≤ 1 := by
  unfold calculateSemanticSimilarity
  simp only
  have hw : (0 : ℚ) < authorWeight + tagWeight + lengthWeight := by
    norm_num [authorWeight, tagWeight, lengthWeight]
  rw [if_pos hw]
  have ha := authorContribution_le_half q1 q2
  have ht := calculateTagSimilarity_le_one (q1.tags.getD []) (q2.tags.getD []) h1
  have hl := calculateLengthSimilarity_le_one q1.text q2.text
  have e1 : authorWeight = 5 / 10 := rfl
  have e2 : tagWeight = 3 / 10 := rfl
  have e3 : lengthWeight = 2 / 10 := rfl
  rw [div_le_one hw, e1, e2, e3]
  nlinarith

/-- C8: for well-formed quotes the blended similarity score lies in
`[0, 1]`, and hence so does the score of every ranked entry over a pool
of well-formed quotes. -/
theorem claim_C8 :
    (∀ q1 q2 : Quote, TagsNodup q1 → TagsNodup q2 →
      0 ≤ calculateOverallSimilarity q1 q2 ∧ calculateOverallSimilarity q1 q2 ≤ 1) ∧
    (∀ (targetQuote : Quote) (pool : List Quote) (limit : Nat),
      TagsNodup targetQuote → (∀ q ∈ pool, TagsNodup q) →
      ∀ e ∈ findSimilarQuotes targetQuote pool limit, 0 ≤ e.score ∧ e.score ≤ 1) := by
  have main : ∀ q1 q2 : Quote, TagsNodup q1 → TagsNodup q2 →
      0 ≤ calculateOverallSimilarity q1 q2 ∧ calculateOverallSimilarity q1 q2 ≤ 1 := by
    intro q1 q2 h1 _
    unfold calculateOverallSimilarity
    have hk0 := calculateKeywordSimilarity_nonneg q1 q2
    have hk1 := calculateKeywordSimilarity_le_one q1 q2
    have hs0 := calculateSemanticSimilarity_nonneg q1 q2
    have hs1 := calculateSemanticSimilarity_le_one q1 q2 h1
    rw [show KEYWORD_WEIGHT = 4 / 10 from rfl, show SEMANTIC_WEIGHT = 6 / 10 from rfl]
    constructor
    · positivity
    · nlinarith
  refine ⟨main, ?_⟩
  intro targetQuote pool limit htarget hpool e he
  rcases (mem_scoredCandidates targetQuote pool e).mp
    (mem_findSimilarQuotes targetQuote pool limit e he) with ⟨_, c, hc, _, rfl⟩
  exact main targetQuote c htarget (hpool c hc)

/-- Witness for C8 at the spec's §8 scenario quotes. -/
theorem claim_C8_witness :
    0 ≤ calculateOverallSimilarity wQuote1 wQuote2 ∧
      calculateOverallSimilarity wQuote1 wQuote2 ≤ 1 :=
  claim_C8.1 wQuote1 wQuote2 (by decide) (by decide)

/-! ## The author sub-score anomaly (claim C10) -/

/-- C10: an exact case-insensitive author match contributes
`0.9 × 0.5 = 0.45`, yet authors that differ only in leading/trailing
whitespace miss the exact-match branch (which lower-cases but does not
trim) while `calculateAuthorSimilarity` (which trims) returns 1, so
they contribute `1 × 0.5 = 0.5 > 0.45`. -/
theorem claim_C10 :
    (∀ q1 q2 : Quote, q1.author.map Char.toLower = q2.author.map Char.toLower →
      authorContribution q1 q2 = 45 / 100) ∧
    (∃ q1 q2 : Quote, trimList q1.author = trimList q2.author ∧
      q1.author.map Char.toLower ≠ q2.author.map Char.toLower ∧
      authorContribution q1 q2 = 50 / 100 ∧ (45 : ℚ) / 100 < 50 / 100) := by
  constructor
  · intro q1 q2 h
    unfold authorContribution
    rw [if_pos h]
    norm_num [authorWeight]
  · refine ⟨⟨"a", [], "A".toList, none, 0⟩, ⟨"b", [], " A".toList, none, 0⟩,
      by decide, by decide, ?_, by norm_num⟩
    with_unfolding_all rfl

/-- Witness for C10: equal authors at the fixture quotes contribute
exactly 0.45. -/
theorem claim_C10_witness : authorContribution wQuote1 wQuote2 = 45 / 100 :=
  claim_C10.1 wQuote1 wQuote2 rfl

/-! ## Weighted random selection (claim C3) -/

theorem quoteWeight_pos (q : Quote) : 0 < quoteWeight q := by
  unfold quoteWeight
  positivity

theorem cumW_succ_of_lt (qs : List Quote) (i : Nat) (h : i < qs.length) :
    cumW qs (i + 1) = cumW qs i + quoteWeight qs[i] := by
  unfold cumW
  rw [List.take_succ, List.getElem?_eq_getElem h, List.map_append, List.sum_append]
  simp

theorem cumW_stable_of_le (qs : List Quote) (i : Nat) (h : qs.length ≤ i) :
    cumW qs (i + 1) = cumW qs i := by
  unfold cumW
  rw [List.take_of_length_le h, List.take_of_length_le (le_trans h (Nat.le_succ i))]

theorem cumW_le_succ (qs : List Quote) (i : Nat) : cumW qs i ≤ cumW qs (i + 1) := by
  rcases Nat.lt_or_ge i qs.length with h | h
  · rw [cumW_succ_of_lt qs i h]
    have := quoteWeight_pos qs[i]
    linarith
  · rw [cumW_stable_of_le qs i h]

theorem cumW_mono (qs : List Quote) {m n : Nat} (h : m ≤ n) : cumW qs m ≤ cumW qs n := by
  induction n with
  | zero =>
    have : m = 0 := Nat.le_zero.mp h
    rw [this]
  | succ n ih =>
    rcases Nat.lt_or_ge m (n + 1) with h' | h'
    · exact le_trans (ih (Nat.lt_succ_iff.mp h')) (cumW_le_succ qs n)
    · have : m = n + 1 := le_antisymm h h'
      rw [this]

theorem cumW_nonneg (qs : List Quote) (n : Nat) : 0 ≤ cumW qs n := by
  unfold cumW
  apply List.sum_nonneg
  intro x hx
  rcases List.mem_map.mp hx with ⟨q, _, rfl⟩
  exact le_of_lt (quoteWeight_pos q)

theorem totalWeightOf_eq_cumW (qs : List Quote) : totalWeightOf qs = cumW qs qs.length := by
  unfold totalWeightOf cumW
  rw [List.take_length]

theorem totalWeightOf_pos (qs : List Quote) (h : qs ≠ []) : 0 < totalWeightOf qs := by
  rw [totalWeightOf_eq_cumW]
  have hlen : 1 ≤ qs.length := by
    have := List.length_pos.mpr h
    omega
  have h1 : cumW qs 1 ≤ cumW qs qs.length := cumW_mono qs hlen
  have h0 : cumW qs 1 = cumW qs 0 + quoteWeight qs[0] := cumW_succ_of_lt qs 0 (by omega)
  have hq := quoteWeight_pos qs[0]
  have hz : cumW qs 0 = 0 := rfl
  rw [h0, hz] at h1
  linarith

theorem pickWalk_eq_first :
    ∀ (qs : List Quote) (acc r : ℚ) (i : Nat) (h : i < qs.length),
      r ≤ acc + cumW qs (i + 1) → (∀ k, k < i → ¬(r ≤ acc + cumW qs (k + 1))) →
      pickWalk r acc qs = some (qs.get ⟨i, h⟩) := by
  intro qs
  induction qs with
  | nil =>
    intro acc r i h
    exact absurd h (Nat.not_lt_zero i)
  | cons q rest ih =>
    intro acc r i h hle hmin
    have hcums : ∀ n, cumW (q :: rest) (n + 1) = quoteWeight q + cumW rest n := by
      intro n
      unfold cumW
      simp [List.take_succ_cons]
    cases i with
    | zero =>
      rw [pickWalk, if_pos (by rw [hcums 0] at hle; simpa [show cumW rest 0 = 0 from rfl]
        using hle)]
      rfl
    | succ i' =>
      have h0 : ¬(r ≤ acc + quoteWeight q) := by
        have := hmin 0 (Nat.succ_pos i')
        rw [hcums 0] at this
        simpa [show cumW rest 0 = 0 from rfl] using this
      rw [pickWalk, if_neg h0]
      have h' : i' < rest.length := by
        simpa [List.length_cons, Nat.succ_lt_succ_iff] using h
      exact ih (acc + quoteWeight q) r i' h'
        (by rw [hcums (i' + 1)] at hle; linarith)
        (fun k hk => by
          have := hmin (k + 1) (Nat.succ_lt_succ hk)
          rw [hcums (k + 1)] at this
          intro hc
          exact this (by linarith))

theorem getWeightedRandom_none_iff (pool : List Quote) (excl : List String)
    (minLikes : Nat) (u : ℚ) :
    getWeightedRandom pool excl minLikes u = none ↔
      weightedCandidates pool excl minLikes = [] := by
  unfold getWeightedRandom
  simp only
  by_cases h0 : (weightedCandidates pool excl minLikes).length = 0
  · rw [if_pos h0]
    simp [List.length_eq_zero.mp h0]
  · rw [if_neg h0]
    have hne : weightedCandidates pool excl minLikes ≠ [] := by
      intro hc
      exact h0 (by rw [hc]; rfl)
    by_cases h1 : (weightedCandidates pool excl minLikes).length = 1
    · rw [if_pos h1]
      rcases List.length_eq_one.mp h1 with ⟨a, ha⟩
      simp [ha]
    · rw [if_neg h1]
      cases hw : pickWalk (u * totalWeightOf (weightedCandidates pool excl minLikes)) 0
          (weightedCandidates pool excl minLikes) with
      | some q => simp [hne]
      | none =>
        simp only
        have hsome : (weightedCandidates pool excl minLikes).getLast?.isSome :=
          List.getLast?_isSome.mpr hne
        rcases Option.isSome_iff_exists.mp hsome with ⟨a, ha⟩
        simp [ha, hne]

theorem getWeightedRandom_singleton (pool : List Quote) (excl : List String)
    (minLikes : Nat) (q : Quote)
    (h : weightedCandidates pool excl minLikes = [q]) (u : ℚ) :
    getWeightedRandom pool excl minLikes u = some q := by
  unfold getWeightedRandom
  rw [h]
  rfl

theorem getWeightedRandom_walk (pool : List Quote) (excl : List String)
    (minLikes : Nat) (u : ℚ) (i : Nat)
    (h : i < (weightedCandidates pool excl minLikes).length)
    (h2 : 2 ≤ (weightedCandidates pool excl minLikes).length)
    (hle : u * totalWeightOf (weightedCandidates pool excl minLikes) ≤
      cumW (weightedCandidates pool excl minLikes) (i + 1))
    (hmin : ∀ k, k < i → ¬(u * totalWeightOf (weightedCandidates pool excl minLikes) ≤
      cumW (weightedCandidates pool excl minLikes) (k + 1))) :
    getWeightedRandom pool excl minLikes u =
      some ((weightedCandidates pool excl minLikes).get ⟨i, h⟩) := by
  have hpw := pickWalk_eq_first (weightedCandidates pool excl minLikes) 0
    (u * totalWeightOf (weightedCandidates pool excl minLikes)) i h
    (by simpa using hle) (fun k hk => by simpa using hmin k hk)
  unfold getWeightedRandom
  rw [if_neg (by omega), if_neg (by omega)]
  simp only [hpw]

theorem getWeightedRandom_hits (pool : List Quote) (excl : List String)
    (minLikes : Nat) (i : Nat) (h : i < (weightedCandidates pool excl minLikes).length) :
    ∃ a b : ℚ, 0 ≤ a ∧ a < b ∧ b ≤ 1 ∧ ∀ u : ℚ, a < u → u < b →
      getWeightedRandom pool excl minLikes u =
        some ((weightedCandidates pool excl minLikes).get ⟨i, h⟩) := by
  set qs := weightedCandidates pool excl minLikes with hqs
  have hne : qs ≠ [] := by
    intro hc
    rw [hc] at h
    exact absurd h (Nat.not_lt_zero i)
  have hW : 0 < totalWeightOf qs := totalWeightOf_pos qs hne
  by_cases hlen1 : qs.length = 1
  · have hi : i = 0 := by omega
    rcases List.length_eq_one.mp hlen1 with ⟨a, ha⟩
    refine ⟨0, 1, le_rfl, by norm_num, le_rfl, ?_⟩
    intro u _ _
    have hget : qs.get ⟨i, h⟩ = a := by
      subst hi
      simp [ha]
    rw [getWeightedRandom_singleton pool excl minLikes a (by rw [← hqs]; exact ha), hget]
  · have h2 : 2 ≤ qs.length := by
      have := List.length_pos.mpr hne
      omega
    refine ⟨cumW qs i / totalWeightOf qs, cumW qs (i + 1) / totalWeightOf qs, ?_, ?_, ?_, ?_⟩
    · exact div_nonneg (cumW_nonneg qs i) (le_of_lt hW)
    · rw [div_lt_div_iff hW hW]
      have hlt : cumW qs i < cumW qs (i + 1) := by
        rw [cumW_succ_of_lt qs i h]
        have := quoteWeight_pos qs[i]
        linarith
      exact mul_lt_mul_of_pos_right hlt hW
    · rw [div_le_one hW, totalWeightOf_eq_cumW]
      exact cumW_mono qs h
    · intro u hau hub
      apply getWeightedRandom_walk pool excl minLikes u i h h2
      · exact le_of_lt ((lt_div_iff hW).mp hub)
      · intro k hk hc
        have h1 : cumW qs i < u * totalWeightOf qs := (div_lt_iff hW).mp hau
        have h3 : cumW qs (k + 1) ≤ cumW qs i := cumW_mono qs (by omega)
        linarith

/-- C3: `getWeightedRandom` filters the pool by `likes ≥ minLikes` and
`id ∉ excludeIds`; it returns nothing exactly when the filtered pool is
empty; a single candidate is returned for every random draw; otherwise,
with `r = u × W`, the walk returns the first candidate whose cumulative
`likes + 1` weight reaches `r`; and every candidate is selected on a
`u`-subinterval of positive length, so each has nonzero selection
probability. -/
theorem claim_C3 :
    (∀ (pool : List Quote) (excl : List String) (minLikes : Nat) (q : Quote),
      q ∈ weightedCandidates pool excl minLikes ↔
        q ∈ pool ∧ minLikes ≤ q.likes ∧ q.id ∉ excl) ∧
    (∀ (pool : List Quote) (excl : List String) (minLikes : Nat) (u : ℚ),
      getWeightedRandom pool excl minLikes u = none ↔
        weightedCandidates pool excl minLikes = []) ∧
    (∀ (pool : List Quote) (excl : List String) (minLikes : Nat) (q : Quote),
      weightedCandidates pool excl minLikes = [q] →
        ∀ u : ℚ, getWeightedRandom pool excl minLikes u = some q) ∧
    (∀ (pool : List Quote) (excl : List String) (minLikes : Nat) (u : ℚ) (i : Nat)
      (h : i < (weightedCandidates pool excl minLikes).length),
      2 ≤ (weightedCandidates pool excl minLikes).length →
      u * totalWeightOf (weightedCandidates pool excl minLikes) ≤
        cumW (weightedCandidates pool excl minLikes) (i + 1) →
      (∀ k, k < i → ¬(u * totalWeightOf (weightedCandidates pool excl minLikes) ≤
        cumW (weightedCandidates pool excl minLikes) (k + 1))) →
      getWeightedRandom pool excl minLikes u =
        some ((weightedCandidates pool excl minLikes).get ⟨i, h⟩)) ∧
    (∀ (pool : List Quote) (excl : List String) (minLikes : Nat) (i : Nat)
      (h : i < (weightedCandidates pool excl minLikes).length),
      ∃ a b : ℚ, 0 ≤ a ∧ a < b ∧ b ≤ 1 ∧ ∀ u : ℚ, a < u → u < b →
        getWeightedRandom pool excl minLikes u =
          some ((weightedCandidates pool excl minLikes).get ⟨i, h⟩)) := by
  refine ⟨?_, ?_, ?_, ?_, ?_⟩
  · intro pool excl minLikes q
    unfold weightedCandidates sortByLikesDesc
    rw [(sortByDesc_perm _ _).mem_iff]
    simp [List.mem_filter, and_assoc]
  · intro pool excl minLikes u
    exact getWeightedRandom_none_iff pool excl minLikes u
  · intro pool excl minLikes q h u
    exact getWeightedRandom_singleton pool excl minLikes q h u
  · intro pool excl minLikes u i h h2 hle hmin
    exact getWeightedRandom_walk pool excl minLikes u i h h2 hle hmin
  · intro pool excl minLikes i h
    exact getWeightedRandom_hits pool excl minLikes i h

/-- Witness for C3 on concrete pools: a singleton pool is returned for
an arbitrary draw, the empty pool yields nothing, and on a two-element
pool the draw `u = 1/2` selects the first (heavier) candidate. -/
theorem claim_C3_witness :
    getWeightedRandom [wQuoteA] [] 0 (1 / 2) = some wQuoteA ∧
    getWeightedRandom [] [] 0 (1 / 2) = none ∧
    getWeightedRandom [wQuoteA, wQuoteB] [] 0 (1 / 2) = some wQuoteA := by
  refine ⟨?_, ?_, ?_⟩
  · exact claim_C3.2.2.1 [wQuoteA] [] 0 wQuoteA (by with_unfolding_all rfl) (1 / 2)
  · exact (claim_C3.2.1 [] [] 0 (1 / 2)).mpr (by with_unfolding_all rfl)
  · have hlen : (weightedCandidates [wQuoteA, wQuoteB] [] 0).length = 2 := by
      with_unfolding_all rfl
    have h : 0 < (weightedCandidates [wQuoteA, wQuoteB] [] 0).length := by
      rw [hlen]
      omega
    have happly := claim_C3.2.2.2.1 [wQuoteA, wQuoteB] [] 0 (1 / 2) 0 h
      (by rw [hlen]) (by with_unfolding_all rfl)
      (fun k hk => absurd hk (Nat.not_lt_zero k))
    rw [happly]
    with_unfolding_all rfl

/-! ## Association-list lemmas for the cache stores -/

theorem lookupA_insertA {β : Type} (k : String) (v : β) (l : List (String × β)) :
    lookupA k (insertA k v l) = some v := by
  unfold lookupA insertA
  simp [List.find?]

theorem lookupA_eraseA_self {β : Type} (k : String) (l : List (String × β)) :
    lookupA k (eraseA k l) = none := by
  unfold lookupA eraseA
  rw [List.find?_eq_none.mpr]
  · rfl
  · intro p hp
    rcases List.mem_filter.mp hp with ⟨_, hne⟩
    simp only [decide_eq_true_eq] at hne
    simp [hne]

theorem lookupA_eraseA_ne {β : Type} (k k' : String) (l : List (String × β))
    (h : k' ≠ k) : lookupA k' (eraseA k l) = lookupA k' l := by
  unfold lookupA eraseA
  induction l with
  | nil => rfl
  | cons p ps ih =>
    rw [List.filter_cons]
    by_cases hpk : p.1 = k
    · have hne : decide (p.1 ≠ k) = false := by simp [hpk]
      rw [hne]
      have hpk' : (p.1 == k') = false := by
        rw [hpk]
        simp only [beq_eq_false_iff_ne, ne_eq]
        exact fun hh => h hh.symm
      simp only [Bool.false_eq_true, if_false, List.find?_cons, hpk']
      exact ih
    · have hkeep : decide (p.1 ≠ k) = true := by simp [hpk]
      rw [hkeep]
      simp only [if_true, List.find?_cons]
      cases hpq : (p.1 == k') with
      | true => rfl
      | false => exact ih

/-! ## `getSimilarQuotesService`: structural lemmas -/

/-- The read path never writes the persistent similarity table. -/
theorem getSimilarService_persistent_unchanged (st : SimState)
    (rg rs fbi fba : Bool) (id : String) (limit : Int) :
    ((getSimilarQuotesService st rg rs fbi fba id limit).2).persistentSim =
      st.persistentSim := by
  unfold getSimilarQuotesService computeSimilar cacheSetSimilar
  dsimp only
  repeat' split
  all_goals rfl

/-- The read path never reads the persistent similarity table: both the
returned value and the ephemeral cache written are unchanged when the
persistent table is replaced arbitrarily. -/
theorem getSimilarService_ignores_persistent (st : SimState)
    (rg rs fbi fba : Bool) (id : String) (limit : Int)
    (p : List (String × List SimilarityScore)) :
    (getSimilarQuotesService { st with persistentSim := p } rg rs fbi fba id limit).1 =
        (getSimilarQuotesService st rg rs fbi fba id limit).1 ∧
      ((getSimilarQuotesService { st with persistentSim := p } rg rs fbi fba
          id limit).2).similarCache =
        ((getSimilarQuotesService st rg rs fbi fba id limit).2).similarCache := by
  constructor <;>
  · unfold getSimilarQuotesService computeSimilar cacheSetSimilar cacheGetSimilar
      findAllModel
    dsimp only
    repeat' split
    all_goals rfl

theorem computeSimilar_ok (st : SimState) (rs : Bool) (targetQuote : Quote)
    (tid : String) (limit : Int) :
    computeSimilar st rs false targetQuote tid limit =
      (.ok (findSimilarQuotes targetQuote (findAllModel st) limit.toNat),
        cacheSetSimilar st rs tid
          (findSimilarQuotes targetQuote (findAllModel st) limit.toNat)) := rfl

/-- Cache hit with a nonempty list: the cached list truncated to the
requested limit is returned and the state is untouched. -/
theorem getSimilarService_hit (st : SimState) (rs fba : Bool) (id : String)
    (limit : Int) (hid : ¬(trimStr id).length = 0)
    (hlimit : ¬(limit ≤ 0 ∨ 50 < limit)) (targetQuote : Quote)
    (hfind : st.dbQuotes.find? (fun q => q.id == trimStr id) = some targetQuote)
    (l : List SimilarityScore)
    (hcache : lookupA (trimStr id) st.similarCache = some l) (hl : 0 < l.length) :
    getSimilarQuotesService st false rs false fba id limit =
      (.ok (l.take limit.toNat), st) := by
  unfold getSimilarQuotesService cacheGetSimilar
  rw [if_neg hid, if_neg hlimit]
  simp only [Bool.false_eq_true, if_false, hfind, hcache, if_pos hl]

/-- Cache miss (or a cached empty list): the ranking is computed at the
requested limit over the full pool and written to the ephemeral tier
only. -/
theorem getSimilarService_miss (st : SimState) (rs fba : Bool) (id : String)
    (limit : Int) (hid : ¬(trimStr id).length = 0)
    (hlimit : ¬(limit ≤ 0 ∨ 50 < limit)) (targetQuote : Quote)
    (hfind : st.dbQuotes.find? (fun q => q.id == trimStr id) = some targetQuote)
    (hcache : lookupA (trimStr id) st.similarCache = none) :
    getSimilarQuotesService st false rs false false id limit =
      (.ok (findSimilarQuotes targetQuote (findAllModel st) limit.toNat),
        cacheSetSimilar st rs (trimStr id)
          (findSimilarQuotes targetQuote (findAllModel st) limit.toNat)) := by
  unfold getSimilarQuotesService cacheGetSimilar
  rw [if_neg hid, if_neg hlimit]
  simp only [Bool.false_eq_true, if_false, hfind, hcache]
  exact computeSimilar_ok st rs targetQuote (trimStr id) limit

/-- A successful `likeQuote`: the like counter is incremented and only
the quote's own Redis entries plus the random-quotes key are dropped. -/
theorem likeQuoteService_success (st : SimState) (id : String)
    (hid : ¬(trimStr id).length = 0)
    (hexists : st.dbQuotes.any (fun q => q.id == trimStr id) = true) :
    ∃ updatedQuote : Quote,
      (incrementLikesModel st.dbQuotes (trimStr id)).find?
          (fun q => q.id == trimStr id) = some updatedQuote ∧
      updatedQuote.id = trimStr id ∧
      likeQuoteService st false false false false false id =
        (.ok updatedQuote,
          { dbQuotes := incrementLikesModel st.dbQuotes (trimStr id),
            persistentSim := st.persistentSim,
            quoteCache := eraseA (trimStr id) st.quoteCache,
            similarCache := eraseA (trimStr id) st.similarCache,
            randomCache := none }) := by
  rcases List.any_eq_true.mp hexists with ⟨q, hq, hqid⟩
  have hmem : (if q.id == trimStr id then { q with likes := q.likes + 1 } else q) ∈
      incrementLikesModel st.dbQuotes (trimStr id) := by
    unfold incrementLikesModel
    exact List.mem_map_of_mem _ hq
  rw [hqid, if_pos rfl] at hmem
  have hpred : (({ q with likes := q.likes + 1 } : Quote).id == trimStr id) = true := hqid
  have hsome : ((incrementLikesModel st.dbQuotes (trimStr id)).find?
      (fun q => q.id == trimStr id)).isSome := by
    rw [List.find?_isSome]
    exact ⟨_, hmem, hpred⟩
  rcases Option.isSome_iff_exists.mp hsome with ⟨u, hu⟩
  have huid : u.id = trimStr id := by
    have := List.find?_some hu
    exact eq_of_beq this
  refine ⟨u, hu, huid, ?_⟩
  unfold likeQuoteService
  rw [if_neg hid]
  have hex' : ¬¬(st.dbQuotes.any (fun q => q.id == trimStr id)) = true := by
    rw [hexists]
    simp
  simp only [Bool.false_eq_true, if_false, hex', hu]
  unfold cacheInvalidateQuote cacheInvalidateRandom
  simp only [Bool.false_eq_true, if_false, huid]

/-! ## Claim C4: the cache read path is single-tier -/

/-- C4 is false on the code: with an ephemeral miss and a persistent
entry present for the target, `getSimilarQuotes` does not return the
persistent entry and does not backfill the ephemeral tier with it; it
recomputes (here: an empty ranking) and writes that to the ephemeral
tier only. -/
theorem claim_C4_counterexample :
    (getSimilarQuotesService stC4 false false false false "a" 10).1 = .ok [] ∧
    lookupA "a" stC4.persistentSim = some [⟨wQuoteB, 1⟩] ∧
    ((getSimilarQuotesService stC4 false false false false "a" 10).2).similarCache =
      [("a", [])] ∧
    (getSimilarQuotesService stC4 false false false false "a" 10).1 ≠
      .ok [⟨wQuoteB, 1⟩] := by
  refine ⟨by with_unfolding_all rfl, by with_unfolding_all rfl,
    by with_unfolding_all rfl, ?_⟩
  intro h
  rw [show (getSimilarQuotesService stC4 false false false false "a" 10).1 = .ok []
    from by with_unfolding_all rfl] at h
  simp at h

/-- C4 (amended): the read path consults only the ephemeral (Redis)
tier.  The persistent similarity table is neither read (replacing it
changes nothing) nor written; a nonempty ephemeral hit is returned
truncated to the requested limit with no state change; on a miss the
ranking is computed over the full pool and written to the ephemeral
tier only. -/
theorem claim_C4 :
    (∀ (st : SimState) (rg rs fbi fba : Bool) (id : String) (limit : Int),
      ((getSimilarQuotesService st rg rs fbi fba id limit).2).persistentSim =
        st.persistentSim) ∧
    (∀ (st : SimState) (rg rs fbi fba : Bool) (id : String) (limit : Int)
      (p : List (String × List SimilarityScore)),
      (getSimilarQuotesService { st with persistentSim := p } rg rs fbi fba
          id limit).1 =
        (getSimilarQuotesService st rg rs fbi fba id limit).1) ∧
    (∀ (st : SimState) (rs fba : Bool) (id : String) (limit : Int),
      ¬(trimStr id).length = 0 → ¬(limit ≤ 0 ∨ 50 < limit) →
      ∀ targetQuote, st.dbQuotes.find? (fun q => q.id == trimStr id) = some targetQuote →
      ∀ l, lookupA (trimStr id) st.similarCache = some l → 0 < l.length →
      getSimilarQuotesService st false rs false fba id limit =
        (.ok (l.take limit.toNat), st)) ∧
    (∀ (st : SimState) (rs : Bool) (id : String) (limit : Int),
      ¬(trimStr id).length = 0 → ¬(limit ≤ 0 ∨ 50 < limit) →
      ∀ targetQuote, st.dbQuotes.find? (fun q => q.id == trimStr id) = some targetQuote →
      lookupA (trimStr id) st.similarCache = none →
      getSimilarQuotesService st false rs false false id limit =
        (.ok (findSimilarQuotes targetQuote (findAllModel st) limit.toNat),
          cacheSetSimilar st rs (trimStr id)
            (findSimilarQuotes targetQuote (findAllModel st) limit.toNat))) := by
  refine ⟨?_, ?_, ?_, ?_⟩
  · intro st rg rs fbi fba id limit
    exact getSimilarService_persistent_unchanged st rg rs fbi fba id limit
  · intro st rg rs fbi fba id limit p
    exact (getSimilarService_ignores_persistent st rg rs fbi fba id limit p).1
  · intro st rs fba id limit hid hlimit targetQuote hfind l hcache hl
    exact getSimilarService_hit st rs fba id limit hid hlimit targetQuote hfind l hcache hl
  · intro st rs id limit hid hlimit targetQuote hfind hcache
    exact getSimilarService_miss st rs false id limit hid hlimit targetQuote hfind hcache

/-- Witness for C4 (amended) at the concrete states: a cached hit is
served truncated from the ephemeral tier, and a miss computes and
caches. -/
theorem claim_C4_witness :
    getSimilarQuotesService stHit false false false false "a" 10 =
      (.ok (([⟨wQuoteB, 1 / 2⟩] : List SimilarityScore).take (10 : Int).toNat), stHit) ∧
    getSimilarQuotesService stC7 false false false false "a" 10 =
      (.ok (findSimilarQuotes wQuoteA (findAllModel stC7) (10 : Int).toNat),
        cacheSetSimilar stC7 false (trimStr "a")
          (findSimilarQuotes wQuoteA (findAllModel stC7) (10 : Int).toNat)) :=
  ⟨claim_C4.2.2.1 stHit false false "a" 10 (by decide) (by norm_num) wQuoteA
      (by with_unfolding_all rfl) [⟨wQuoteB, 1 / 2⟩] (by with_unfolding_all rfl)
      (by norm_num),
    claim_C4.2.2.2 stC7 false "a" 10 (by decide) (by norm_num) wQuoteA
      (by with_unfolding_all rfl) (by with_unfolding_all rfl)⟩

/-! ## Claim C5: the cached entry depends on the triggering limit -/

/-- C5 is false on the code: the entry written to the cache is the
ranking truncated to the limit of the request that triggered the
computation, so identical states produce different cache entries for
different triggering limits. -/
theorem claim_C5_counterexample :
    ((getSimilarQuotesService stC5 false false false false "t" 1).2).similarCache =
      [("t", [⟨qC5b, 12 / 25⟩])] ∧
    ((getSimilarQuotesService stC5 false false false false "t" 2).2).similarCache =
      [("t", [⟨qC5b, 12 / 25⟩, ⟨qC5c, 12 / 25⟩])] ∧
    ((getSimilarQuotesService stC5 false false false false "t" 1).2).similarCache ≠
      ((getSimilarQuotesService stC5 false false false false "t" 2).2).similarCache := by
  have h1 : ((getSimilarQuotesService stC5 false false false false "t" 1).2).similarCache =
      [("t", [⟨qC5b, 12 / 25⟩])] := by
    with_unfolding_all rfl
  have h2 : ((getSimilarQuotesService stC5 false false false false "t" 2).2).similarCache =
      [("t", [⟨qC5b, 12 / 25⟩, ⟨qC5c, 12 / 25⟩])] := by
    with_unfolding_all rfl
  refine ⟨h1, h2, ?_⟩
  rw [h1, h2]
  simp

/-- C5 (amended): the cache entry written on a miss is the ranking
truncated to the *triggering* request's limit; reads truncate the
cached list to the requested limit, so a later call with a larger
limit, served from that entry, receives at most the entries cached at
the triggering limit. -/
theorem claim_C5 :
    (∀ (st : SimState) (id : String) (limit : Int),
      ¬(trimStr id).length = 0 → ¬(limit ≤ 0 ∨ 50 < limit) →
      ∀ targetQuote, st.dbQuotes.find? (fun q => q.id == trimStr id) = some targetQuote →
      lookupA (trimStr id) st.similarCache = none →
      lookupA (trimStr id)
          (((getSimilarQuotesService st false false false false id limit).2).similarCache) =
        some (findSimilarQuotes targetQuote (findAllModel st) limit.toNat)) ∧
    (∀ (st : SimState) (id : String) (limit : Int),
      ¬(trimStr id).length = 0 → ¬(limit ≤ 0 ∨ 50 < limit) →
      ∀ targetQuote, st.dbQuotes.find? (fun q => q.id == trimStr id) = some targetQuote →
      ∀ l, lookupA (trimStr id) st.similarCache = some l → 0 < l.length →
      (getSimilarQuotesService st false false false false id limit).1 =
        .ok (l.take limit.toNat)) ∧
    (∀ (st : SimState) (id : String) (limit1 limit2 : Int),
      ¬(trimStr id).length = 0 → ¬(limit1 ≤ 0 ∨ 50 < limit1) →
      ¬(limit2 ≤ 0 ∨ 50 < limit2) →
      ∀ targetQuote, st.dbQuotes.find? (fun q => q.id == trimStr id) = some targetQuote →
      lookupA (trimStr id) st.similarCache = none →
      0 < (findSimilarQuotes targetQuote (findAllModel st) limit1.toNat).length →
      (getSimilarQuotesService
          ((getSimilarQuotesService st false false false false id limit1).2)
          false false false false id limit2).1 =
        .ok ((findSimilarQuotes targetQuote (findAllModel st) limit1.toNat).take
          limit2.toNat)) := by
  refine ⟨?_, ?_, ?_⟩
  · intro st id limit hid hlimit targetQuote hfind hcache
    rw [getSimilarService_miss st false false id limit hid hlimit targetQuote hfind hcache]
    unfold cacheSetSimilar
    simp only [Bool.false_eq_true, if_false]
    exact lookupA_insertA _ _ _
  · intro st id limit hid hlimit targetQuote hfind l hcache hl
    rw [getSimilarService_hit st false false id limit hid hlimit targetQuote hfind
      l hcache hl]
  · intro st id limit1 limit2 hid hl1 hl2 targetQuote hfind hcache hne
    rw [getSimilarService_miss st false false id limit1 hid hl1 targetQuote hfind hcache]
    have hdb : ((cacheSetSimilar st false (trimStr id)
        (findSimilarQuotes targetQuote (findAllModel st) limit1.toNat)).dbQuotes) =
        st.dbQuotes := by
      unfold cacheSetSimilar
      simp only [Bool.false_eq_true, if_false]
    have hfind2 : ((cacheSetSimilar st false (trimStr id)
        (findSimilarQuotes targetQuote (findAllModel st) limit1.toNat)).dbQuotes).find?
        (fun q => q.id == trimStr id) = some targetQuote := by
      rw [hdb]
      exact hfind
    have hcache2 : lookupA (trimStr id)
        ((cacheSetSimilar st false (trimStr id)
          (findSimilarQuotes targetQuote (findAllModel st) limit1.toNat)).similarCache) =
        some (findSimilarQuotes targetQuote (findAllModel st) limit1.toNat) := by
      unfold cacheSetSimilar
      simp only [Bool.false_eq_true, if_false]
      exact lookupA_insertA _ _ _
    rw [getSimilarService_hit _ false false id limit2 hid hl2 targetQuote hfind2
      _ hcache2 hne]

/-- Witness for C5 at the concrete three-quote state: a limit-1 call
caches one entry; a follow-up limit-2 call served from that entry still
returns only that one entry. -/
theorem claim_C5_witness :
    lookupA (trimStr "t")
        (((getSimilarQuotesService stC5 false false false false "t" 1).2).similarCache) =
      some (findSimilarQuotes qT5 (findAllModel stC5) (1 : Int).toNat) ∧
    (getSimilarQuotesService
        ((getSimilarQuotesService stC5 false false false false "t" 1).2)
        false false false false "t" 2).1 =
      .ok ((findSimilarQuotes qT5 (findAllModel stC5) (1 : Int).toNat).take
        (2 : Int).toNat) :=
  ⟨claim_C5.1 stC5 "t" 1 (by decide) (by norm_num) qT5 (by with_unfolding_all rfl)
      (by with_unfolding_all rfl),
    claim_C5.2.2 stC5 "t" 1 2 (by decide) (by norm_num) (by norm_num) qT5
      (by with_unfolding_all rfl) (by with_unfolding_all rfl)
      (by with_unfolding_all decide)⟩

/-! ## Claim C6: like-invalidation touches only the ephemeral tier -/

/-- C6 is false on the code in its "both cache tiers" part: liking a
quote leaves the persistent similarity table untouched — here the
persistent entry for the liked quote survives while the ephemeral one
is deleted. -/
theorem claim_C6_counterexample :
    ((likeQuoteService stC6 false false false false false "a").2).persistentSim =
      stC6.persistentSim ∧
    lookupA "a"
        (((likeQuoteService stC6 false false false false false "a").2).persistentSim) =
      some [⟨wQuoteB, 1⟩] ∧
    lookupA "a"
        (((likeQuoteService stC6 false false false false false "a").2).similarCache) =
      none := by
  refine ⟨?_, ?_, ?_⟩ <;> with_unfolding_all rfl

/-- C6 (amended): a successful like increments only the target's like
counter and deletes only that quote's own entries in the *ephemeral*
tier (plus the random-quotes key); the persistent table and every other
quote's ephemeral entry are unchanged, nothing is recomputed eagerly,
and a subsequent `getSimilar` for the liked quote recomputes from the
pool. -/
theorem claim_C6 (st : SimState) (id : String)
    (hid : ¬(trimStr id).length = 0)
    (hexists : st.dbQuotes.any (fun q => q.id == trimStr id) = true) :
    ((likeQuoteService st false false false false false id).2).dbQuotes =
        incrementLikesModel st.dbQuotes (trimStr id) ∧
    ((likeQuoteService st false false false false false id).2).persistentSim =
        st.persistentSim ∧
    ((likeQuoteService st false false false false false id).2).similarCache =
        eraseA (trimStr id) st.similarCache ∧
    lookupA (trimStr id)
        (((likeQuoteService st false false false false false id).2).similarCache) = none ∧
    (∀ other : String, other ≠ trimStr id →
      lookupA other
          (((likeQuoteService st false false false false false id).2).similarCache) =
        lookupA other st.similarCache) ∧
    (∀ (limit : Int) (targetQuote : Quote), ¬(limit ≤ 0 ∨ 50 < limit) →
      (incrementLikesModel st.dbQuotes (trimStr id)).find?
          (fun q => q.id == trimStr id) = some targetQuote →
      (getSimilarQuotesService ((likeQuoteService st false false false false false id).2)
          false false false false id limit).1 =
        .ok (findSimilarQuotes targetQuote
          (findAllModel ((likeQuoteService st false false false false false id).2))
          limit.toNat)) := by
  obtain ⟨u, hu, huid, heq⟩ := likeQuoteService_success st id hid hexists
  have h2 : (likeQuoteService st false false false false false id).2 =
      { dbQuotes := incrementLikesModel st.dbQuotes (trimStr id),
        persistentSim := st.persistentSim,
        quoteCache := eraseA (trimStr id) st.quoteCache,
        similarCache := eraseA (trimStr id) st.similarCache,
        randomCache := none } := by
    rw [heq]
  refine ⟨by rw [h2], by rw [h2], by rw [h2], ?_, ?_, ?_⟩
  · rw [h2]
    exact lookupA_eraseA_self _ _
  · intro other hother
    rw [h2]
    exact lookupA_eraseA_ne _ _ _ hother
  · intro limit targetQuote hlimit hfind
    rw [h2]
    rw [getSimilarService_miss _ false false id limit hid hlimit targetQuote hfind
      (lookupA_eraseA_self _ _)]

/-- Witness for C6 at the concrete state: the liked quote's ephemeral
entry is gone, others and the persistent table survive, and the next
`getSimilar` recomputes. -/
theorem claim_C6_witness :
    lookupA "a"
        (((likeQuoteService stC6 false false false false false "a").2).similarCache) =
      none ∧
    ((likeQuoteService stC6 false false false false false "a").2).persistentSim =
      stC6.persistentSim ∧
    (getSimilarQuotesService ((likeQuoteService stC6 false false false false false "a").2)
        false false false false "a" 10).1 =
      .ok (findSimilarQuotes (⟨"a", [], "A".toList, none, 2⟩ : Quote)
        (findAllModel ((likeQuoteService stC6 false false false false false "a").2))
        (10 : Int).toNat) := by
  have h := claim_C6 stC6 "a" (by decide) (by with_unfolding_all rfl)
  exact ⟨h.2.2.2.1, h.2.1, h.2.2.2.2.2 10 ⟨"a", [], "A".toList, none, 2⟩ (by norm_num)
    (by with_unfolding_all rfl)⟩

/-! ## Claim C7: which failures surface -/

/-- C7 is false on the code: with a healthy caller contract (known id,
limit 10) a pool-fetch failure surfaces as `DATABASE_ERROR` instead of
being recovered by live computation — the identical call with a healthy
pool fetch succeeds. -/
theorem claim_C7_counterexample :
    (getSimilarQuotesService stC7 false false false true "a" 10).1 =
      .error .DATABASE_ERROR ∧
    (getSimilarQuotesService stC7 false false false false "a" 10).1 = .ok [] := by
  constructor <;> with_unfolding_all rfl

/-- With healthy persistence and a found target, the read path always
returns a value, whatever the cache tier does. -/
theorem getSimilarService_ok_exists (st : SimState) (rg rs : Bool) (id : String)
    (limit : Int) (targetQuote : Quote) (h1 : ¬(trimStr id).length = 0)
    (h2 : ¬(limit ≤ 0 ∨ 50 < limit))
    (hfind : st.dbQuotes.find? (fun q => q.id == trimStr id) = some targetQuote) :
    ∃ v, (getSimilarQuotesService st rg rs false false id limit).1 = .ok v := by
  unfold getSimilarQuotesService
  rw [if_neg h1, if_neg h2]
  simp only [Bool.false_eq_true, if_false, hfind]
  cases hc : cacheGetSimilar st rg (trimStr id) with
  | some l =>
    by_cases hl : 0 < l.length
    · exact ⟨l.take limit.toNat, by simp only [if_pos hl]⟩
    · exact ⟨findSimilarQuotes targetQuote (findAllModel st) limit.toNat,
        by simp only [if_neg hl, computeSimilar_ok]⟩
  | none =>
    exact ⟨findSimilarQuotes targetQuote (findAllModel st) limit.toNat,
      by simp only [computeSimilar_ok]⟩

/-- C7 (amended): with healthy persistence, `getSimilarQuotes` errors
exactly on caller-contract violations — an invalid limit or blank id is
a validation error (regardless of any collaborator failure), an unknown
id is not-found — and cache-tier failures never surface; but a
persistence failure (the pool fetch or the target lookup) surfaces as a
database error rather than being recovered. -/
theorem claim_C7 :
    (∀ (st : SimState) (rg rs fbi fba : Bool) (id : String) (limit : Int),
      (trimStr id).length = 0 ∨ limit ≤ 0 ∨ 50 < limit →
      (getSimilarQuotesService st rg rs fbi fba id limit).1 =
        .error .VALIDATION_ERROR) ∧
    (∀ (st : SimState) (rg rs : Bool) (id : String) (limit : Int),
      ¬(trimStr id).length = 0 → ¬(limit ≤ 0 ∨ 50 < limit) →
      st.dbQuotes.find? (fun q => q.id == trimStr id) = none →
      (getSimilarQuotesService st rg rs false false id limit).1 =
        .error .QUOTE_NOT_FOUND) ∧
    (∀ (st : SimState) (rg rs : Bool) (id : String) (limit : Int) (targetQuote : Quote),
      ¬(trimStr id).length = 0 → ¬(limit ≤ 0 ∨ 50 < limit) →
      st.dbQuotes.find? (fun q => q.id == trimStr id) = some targetQuote →
      ∃ v, (getSimilarQuotesService st rg rs false false id limit).1 = .ok v) ∧
    (∀ (st : SimState) (rg rs : Bool) (id : String) (limit : Int) (e : ErrCode),
      (getSimilarQuotesService st rg rs false false id limit).1 = .error e →
      (trimStr id).length = 0 ∨ limit ≤ 0 ∨ 50 < limit ∨
        st.dbQuotes.find? (fun q => q.id == trimStr id) = none) ∧
    (∀ (st : SimState) (id : String) (limit : Int) (targetQuote : Quote),
      ¬(trimStr id).length = 0 → ¬(limit ≤ 0 ∨ 50 < limit) →
      st.dbQuotes.find? (fun q => q.id == trimStr id) = some targetQuote →
      lookupA (trimStr id) st.similarCache = none →
      (getSimilarQuotesService st false false false true id limit).1 =
        .error .DATABASE_ERROR) := by
  refine ⟨?_, ?_, ?_, ?_, ?_⟩
  · intro st rg rs fbi fba id limit h
    unfold getSimilarQuotesService
    by_cases h1 : (trimStr id).length = 0
    · rw [if_pos h1]
    · rw [if_neg h1, if_pos (h.resolve_left h1)]
  · intro st rg rs id limit h1 h2 hfind
    unfold getSimilarQuotesService
    rw [if_neg h1, if_neg h2]
    simp only [Bool.false_eq_true, if_false, hfind]
  · intro st rg rs id limit targetQuote h1 h2 hfind
    exact getSimilarService_ok_exists st rg rs id limit targetQuote h1 h2 hfind
  · intro st rg rs id limit e herr
    by_cases h1 : (trimStr id).length = 0
    · exact Or.inl h1
    · by_cases h2 : limit ≤ 0 ∨ 50 < limit
      · rcases h2 with h2 | h2
        · exact Or.inr (Or.inl h2)
        · exact Or.inr (Or.inr (Or.inl h2))
      · cases hfind : st.dbQuotes.find? (fun q => q.id == trimStr id) with
        | none => exact Or.inr (Or.inr (Or.inr rfl))
        | some targetQuote =>
          exfalso
          obtain ⟨v, hv⟩ :=
            getSimilarService_ok_exists st rg rs id limit targetQuote h1 h2 hfind
          rw [herr] at hv
          exact Except.noConfusion hv
  · intro st id limit targetQuote h1 h2 hfind hcache
    unfold getSimilarQuotesService cacheGetSimilar
    rw [if_neg h1, if_neg h2]
    simp only [Bool.false_eq_true, if_false, hfind, hcache]
    unfold computeSimilar
    simp

/-- Witness for C7 (amended): each error and recovery mode at concrete
inputs over the one-quote state. -/
theorem claim_C7_witness :
    (getSimilarQuotesService stC7 false false false false "a" 0).1 =
      .error .VALIDATION_ERROR ∧
    (getSimilarQuotesService stC7 false false false false "zzz" 10).1 =
      .error .QUOTE_NOT_FOUND ∧
    (∃ v, (getSimilarQuotesService stC7 true true false false "a" 10).1 = .ok v) ∧
    (getSimilarQuotesService stC7 false false false true "a" 10).1 =
      .error .DATABASE_ERROR :=
  ⟨claim_C7.1 stC7 false false false false "a" 0 (Or.inr (Or.inl (by norm_num))),
    claim_C7.2.1 stC7 false false "zzz" 10 (by decide) (by norm_num)
      (by with_unfolding_all rfl),
    claim_C7.2.2.1 stC7 true true "a" 10 wQuoteA (by decide) (by norm_num)
      (by with_unfolding_all rfl),
    claim_C7.2.2.2.2 stC7 "a" 10 wQuoteA (by decide) (by norm_num)
      (by with_unfolding_all rfl) (by with_unfolding_all rfl)⟩

end QuoteSvc
